import Mathlib

/-!
# go-coinmarketcap: the request pipeline of `client.go`

A shallow embedding of `NewClient` and its options, `doRequest`, `getResponseBody`,
`get`, `APIError` and `ParamBuilder` (`client.go`), of `Status` and `APIResponse`
(`types.go`), of the pointer helpers (`helpers.go`) and of the parameter building of
`GetCryptocurrencyMap` and `GetCryptocurrencyListingsLatest` (`cryptocurrency.go`).

Conventions of the embedding

* Go `string` and `[]byte` are both `String`; `string(body)` is the identity and a
  nil byte slice is the empty text.
* Go `int` is `Int`; `time.Duration` is an `Int` of nanoseconds, wrapped to 64 bits
  where the source multiplies a value that comes from the network.
* An `io.Reader` is described by what `io.ReadAll` returns on it: the bytes and the
  error (if any) that ends the stream.
* A Go pointer is an `Option`, `none` being nil; dereferencing nil is the outcome
  `panic`.  A `float64` is carried as its bit pattern and a `rate.Limit` as a rational
  number; the functions that format a float or a time are parameters.
* The side effects of one call are recorded in a trace of `Event`s, in program order.
* The standard library and the network are not part of the repository: the library
  functions the pipeline calls are the fields of `Lib`, the outcomes of the rate
  limiter and of the transport are the fields of `Env`.  Theorems quantify over both.
-/

namespace CoinMarketCap

/-! ## Constants (`client.go`, lines 20-27) -/

/-- One `time.Second`, in nanoseconds. -/
def Second : Int := 1000000000

/-- Constant `DefaultBaseURL`. -/
def DefaultBaseURL : String := "https://pro-api.coinmarketcap.com"

/-- Constant `SandboxBaseURL`. -/
def SandboxBaseURL : String := "https://sandbox-api.coinmarketcap.com"

/-- Constant `DefaultRetryDelay = 1 * time.Second`. -/
def DefaultRetryDelay : Int := 1 * Second

/-- Constant `MaxRetries`. -/
def MaxRetries : Nat := 3

/-- Constant `http.StatusTooManyRequests`. -/
def StatusTooManyRequests : Int := 429

/-- Constant `http.StatusUnauthorized`. -/
def StatusUnauthorized : Int := 401

/-- Constant `http.StatusPaymentRequired`. -/
def StatusPaymentRequired : Int := 402

/-! ## Errors -/

/-- Type `APIError` (`client.go`, lines 277-281). -/
structure APIError where
  StatusCode : Int
  ErrorCode : Int
  Message : String
deriving DecidableEq, Repr

/-- Method `(*APIError).IsRateLimit`. -/
def APIError.IsRateLimit (e : APIError) : Bool :=
  e.StatusCode == StatusTooManyRequests ||
    e.ErrorCode == 1008 ||
    e.ErrorCode == 1009 ||
    e.ErrorCode == 1010 ||
    e.ErrorCode == 1011

/-- Method `(*APIError).IsAuthError`. -/
def APIError.IsAuthError (e : APIError) : Bool :=
  e.StatusCode == StatusUnauthorized ||
    e.ErrorCode == 1001 ||
    e.ErrorCode == 1002 ||
    e.ErrorCode == 1005 ||
    e.ErrorCode == 1007

/-- Method `(*APIError).IsPaymentRequired`. -/
def APIError.IsPaymentRequired (e : APIError) : Bool :=
  e.StatusCode == StatusPaymentRequired ||
    e.ErrorCode == 1003 ||
    e.ErrorCode == 1004

/-- Go `error` values that reach the caller of the pipeline.
`wrapped msg inner` is `fmt.Errorf(msg + ": %w", inner)`; `api e` is a `*APIError`;
`canceled` and `deadlineExceeded` are `context.Canceled` and
`context.DeadlineExceeded`; `plain` is any other library error. -/
inductive GoError where
  | plain (msg : String)
  | canceled
  | deadlineExceeded
  | wrapped (msg : String) (inner : GoError)
  | api (e : APIError)
deriving DecidableEq, Repr

/-- The type assertion `err.(*APIError)` used by callers and by the tests. -/
def GoError.asAPIError : GoError → Option APIError
  | .api e => some e
  | _ => none

/-- Holds when `errors.Is(err, target)`: `target` is `err` or is reached by unwrapping. -/
def GoError.wraps : GoError → GoError → Bool
  | .wrapped msg inner, target =>
    decide (GoError.wrapped msg inner = target) || inner.wraps target
  | err, target => decide (err = target)

/-- Holds when the error is, or wraps, a cancellation of the caller's context. -/
def GoError.isCancellation (err : GoError) : Bool :=
  err.wraps .canceled || err.wraps .deadlineExceeded

/-! ## Response types (`types.go`, lines 8-20) -/

/-- Type `Status`.  `Timestamp` keeps the text of the `time.Time` value. -/
structure Status where
  Timestamp : String
  ErrorCode : Int
  ErrorMessage : Option String
  Elapsed : Int
  CreditCount : Int
deriving DecidableEq, Repr

/-- Type `APIResponse[T]`. -/
structure APIResponse (T : Type) where
  Data : T
  Status : Status
deriving DecidableEq, Repr

/-! ## HTTP values -/

/-- Type `url.Values`: keys with their values (a nil map is the empty list). -/
abbrev Values := List (String × List String)

/-- Type `http.Header` of a request built with `Set` only: canonical key and value. -/
abbrev Header := List (String × String)

/-- Method `http.Header.Set` with the canonical form of the key given by `canon`. -/
def headerSet (canon : String → String) (h : Header) (key value : String) : Header :=
  h.filter (fun p => p.1 ≠ canon key) ++ [(canon key, value)]

/-- Method `http.Header.Get`: the value under the canonical key, `""` when absent. -/
def headerGet (canon : String → String) (h : Header) (key : String) : String :=
  (h.lookup (canon key)).getD ""

/-- The `*http.Request` built by `doRequest`: always a GET without body. -/
structure Request where
  URL : String
  Header : Header
deriving DecidableEq, Repr

/-- An `io.ReadCloser`: what `io.ReadAll` returns on it. -/
structure Reader where
  data : String
  err : Option GoError
deriving DecidableEq, Repr

/-- The part of an `*http.Response` that the pipeline reads: the status code,
`resp.Header.Get("Content-Encoding")`, `resp.Header.Get("Retry-After")` and the body. -/
structure Response where
  StatusCode : Int
  ContentEncoding : String
  RetryAfter : String
  Body : Reader
deriving DecidableEq, Repr

/-- Type `RequestOptions[T]`; `none` in a field is the nil map.  `Headers` lists the
entries of the Go map in the order in which `range` visits them. -/
structure RequestOptions where
  QueryParams : Option Values
  Headers : Option (List (String × String))
deriving DecidableEq, Repr

/-- The rate limiter held by the client: `rate.NewLimiter(limit, burst)`. -/
structure Limiter where
  limit : ℚ
  burst : Nat
deriving DecidableEq

/-- The settings of an `*http.Client` that the package sets: its `Timeout`, in
nanoseconds. -/
structure HttpClient where
  Timeout : Int
deriving DecidableEq, Repr

/-- Type `Client`; the answers of the transport and the limiter's clock live in `Env`. -/
structure Client where
  apiKey : String
  baseURL : String
  httpClient : HttpClient
  rateLimiter : Limiter
  userAgent : String
deriving DecidableEq

/-- The library functions called by the pipeline. -/
structure Lib (T : Type) where
  /-- Method `url.Values.Encode`. -/
  encodeValues : Values → String
  /-- Function `textproto.CanonicalMIMEHeaderKey`, applied by `http.Header.Set`. -/
  canonicalHeaderKey : String → String
  /-- The error of `http.NewRequestWithContext` on this URL, if it has one. -/
  newRequestError : String → Option GoError
  /-- Function `gzip.NewReader`. -/
  gzipNewReader : Reader → Except GoError Reader
  /-- Function `json.Unmarshal` into `struct { Status Status }`. -/
  unmarshalStatus : String → Except GoError Status
  /-- Function `json.Unmarshal` into `APIResponse[T]`. -/
  unmarshalResponse : String → Except GoError (APIResponse T)

/-- What the world answers during one call. -/
structure Env where
  /-- The error of `c.rateLimiter.Wait(ctx)`, if it has one. -/
  limiterWait : Option GoError
  /-- The result of the call of `c.httpClient.Do(req)` made at loop index `attempt`. -/
  Do : Nat → Request → Except GoError Response

/-- Observable steps of one call. -/
inductive Event where
  | limiterWait
  | send (req : Request)
  | sleep (d : Int)
  | closeBody
deriving DecidableEq, Repr

/-- How a Go function ends: a value, an error, or a run-time panic. -/
inductive Outcome (α : Type) where
  | ok (val : α)
  | error (err : GoError)
  | panic
deriving DecidableEq, Repr

/-- A run of a pipeline function: its trace and how it ended. -/
structure Run (α : Type) where
  trace : List Event
  result : Outcome α

/-- Number of `httpClient.Do` calls in a trace. -/
def sendCount : List Event → Nat
  | [] => 0
  | .send _ :: tr => sendCount tr + 1
  | _ :: tr => sendCount tr

/-- The arguments of the `time.Sleep` calls in a trace, in order. -/
def sleeps : List Event → List Int
  | [] => []
  | .sleep d :: tr => d :: sleeps tr
  | _ :: tr => sleeps tr

/-! ## `strconv.Atoi` and 64-bit durations -/

/-- Wrap to a signed 64-bit integer. -/
def wrapInt64 (x : Int) : Int := (x + 2 ^ 63) % 2 ^ 64 - 2 ^ 63

/-- Value of a run of decimal digits; `none` on any other character. -/
def parseDigits : List Char → Nat → Option Nat
  | [], acc => some acc
  | ch :: rest, acc =>
    if ch.isDigit then parseDigits rest (acc * 10 + (ch.toNat - 48)) else none

/-- Function `strconv.Atoi` for a 64-bit `int`: an optional sign, then one or more
decimal digits, within the range of `int`. -/
def Atoi (s : String) : Option Int :=
  match s.toList with
  | [] => none
  | '-' :: ds =>
    if ds.isEmpty then none
    else (parseDigits ds 0).bind fun n => if n ≤ 2 ^ 63 then some (-(n : Int)) else none
  | '+' :: ds =>
    if ds.isEmpty then none
    else (parseDigits ds 0).bind fun n => if n < 2 ^ 63 then some (n : Int) else none
  | ds => (parseDigits ds 0).bind fun n => if n < 2 ^ 63 then some (n : Int) else none

/-! ## The pipeline (`client.go`, lines 130-274) -/

/-- The linear backoff `DefaultRetryDelay * time.Duration(attempt+1)`. -/
def backoff (attempt : Nat) : Int := DefaultRetryDelay * ((attempt : Int) + 1)

/-- The wait chosen for a 429 response at loop index `attempt` (lines 174-183). -/
def retryAfterDelay (resp : Response) (attempt : Nat) : Int :=
  if resp.RetryAfter ≠ "" then
    match Atoi resp.RetryAfter with
    | some seconds => wrapInt64 (seconds * Second)
    | none => backoff attempt
  else backoff attempt

/-- The retry loop `for attempt := 0; attempt <= MaxRetries; attempt++` (lines
162-188), run over the loop indices still to visit.  The second argument is the
variable `resp`.  Result: `.error` for the `return` of line 169, else the value of
`resp` when the loop is left. -/
def sendLoop (env : Env) (req : Request) :
    List Nat → Option Response → List Event × Except GoError (Option Response)
  | [], resp => ([], .ok resp)
  | attempt :: rest, _ =>
    match env.Do attempt req with
    | .error lastErr =>
      if attempt < MaxRetries then
        let r := sendLoop env req rest none
        (.send req :: .sleep (backoff attempt) :: r.1, r.2)
      else
        ([.send req], .error (.wrapped
          ("request failed after " ++ toString (MaxRetries + 1) ++ " attempts") lastErr))
    | .ok resp =>
      if resp.StatusCode = StatusTooManyRequests ∧ attempt < MaxRetries then
        let r := sendLoop env req rest (some resp)
        (.send req :: .closeBody :: .sleep (retryAfterDelay resp attempt) :: r.1, r.2)
      else
        ([.send req], .ok (some resp))

/-- Function `getResponseBody` (lines 218-232): the bytes and the error it returns. -/
def getResponseBody {T : Type} (lib : Lib T) (resp : Response) : String × Option GoError :=
  if resp.ContentEncoding = "gzip" then
    match lib.gzipNewReader resp.Body with
    | .error err => ("", some (.wrapped "failed to create gzip reader" err))
    | .ok gzReader => (gzReader.data, gzReader.err)
  else (resp.Body.data, resp.Body.err)

/-- The URL of the request (lines 135-138). -/
def requestURL {T : Type} (lib : Lib T) (c : Client) (endpoint : String)
    (opts : Option RequestOptions) : String :=
  match opts with
  | some o =>
    match o.QueryParams with
    | some q => if q.length > 0 then c.baseURL ++ endpoint ++ "?" ++ lib.encodeValues q
      else c.baseURL ++ endpoint
    | none => c.baseURL ++ endpoint
  | none => c.baseURL ++ endpoint

/-- The headers of the request (lines 145-157). -/
def requestHeader {T : Type} (lib : Lib T) (c : Client) (opts : Option RequestOptions) :
    Header :=
  let h0 : Header := []
  let h1 := headerSet lib.canonicalHeaderKey h0 "Accept" "application/json"
  let h2 := headerSet lib.canonicalHeaderKey h1 "Accept-Encoding" "gzip"
  let h3 := headerSet lib.canonicalHeaderKey h2 "User-Agent" c.userAgent
  let h4 := if c.apiKey ≠ "" then
      headerSet lib.canonicalHeaderKey h3 "X-CMC_PRO_API_KEY" c.apiKey else h3
  match opts with
  | some o =>
    match o.Headers with
    | some hs => hs.foldl (fun h kv => headerSet lib.canonicalHeaderKey h kv.1 kv.2) h4
    | none => h4
  | none => h4

/-- The request handed to the transport (lines 135-157). -/
def buildRequest {T : Type} (lib : Lib T) (c : Client) (endpoint : String)
    (opts : Option RequestOptions) : Request :=
  { URL := requestURL lib c endpoint opts, Header := requestHeader lib c opts }

/-- The `APIError` built from a response with status at least 400 (lines 191-211). -/
def httpError {T : Type} (lib : Lib T) (resp : Response) : APIError :=
  let body := (getResponseBody lib resp).1
  let apiErr : APIError := { StatusCode := resp.StatusCode, ErrorCode := 0, Message := body }
  match lib.unmarshalStatus body with
  | .ok st =>
    match st.ErrorMessage with
    | some m => { apiErr with ErrorCode := st.ErrorCode, Message := m }
    | none => { apiErr with ErrorCode := st.ErrorCode }
  | .error _ => apiErr

/-- Method `(*Client).doRequest` (lines 130-215). -/
def doRequest {T : Type} (lib : Lib T) (c : Client) (env : Env) (endpoint : String)
    (opts : Option RequestOptions) : Run Response :=
  match env.limiterWait with
  | some err => ⟨[.limiterWait], .error (.wrapped "rate limiter error" err)⟩
  | none =>
    match lib.newRequestError (requestURL lib c endpoint opts) with
    | some err => ⟨[.limiterWait], .error (.wrapped "failed to create request" err)⟩
    | none =>
      let req := buildRequest lib c endpoint opts
      match sendLoop env req (List.range (MaxRetries + 1)) none with
      | (tr, .error err) => ⟨.limiterWait :: tr, .error err⟩
      | (tr, .ok none) => ⟨.limiterWait :: tr, .panic⟩
      | (tr, .ok (some resp)) =>
        if resp.StatusCode ≥ 400 then
          ⟨.limiterWait :: tr ++ [.closeBody], .error (.api (httpError lib resp))⟩
        else ⟨.limiterWait :: tr, .ok resp⟩

/-- Function `get[T]` (lines 236-274). -/
def get {T : Type} (lib : Lib T) (c : Client) (env : Env) (endpoint : String)
    (opts : Option RequestOptions) : Run (APIResponse T) :=
  let reqOpts : Option RequestOptions :=
    opts.map fun o => { QueryParams := o.QueryParams, Headers := o.Headers }
  match doRequest lib c env endpoint reqOpts with
  | ⟨tr, .error err⟩ => ⟨tr, .error err⟩
  | ⟨tr, .panic⟩ => ⟨tr, .panic⟩
  | ⟨tr, .ok resp⟩ =>
    match getResponseBody lib resp with
    | (_, some err) =>
      ⟨tr ++ [.closeBody], .error (.wrapped "failed to read response body" err)⟩
    | (body, none) =>
      match lib.unmarshalResponse body with
      | .error err =>
        ⟨tr ++ [.closeBody], .error (.wrapped "failed to unmarshal response" err)⟩
      | .ok apiResp =>
        if apiResp.Status.ErrorCode ≠ 0 then
          let errorMsg := match apiResp.Status.ErrorMessage with
            | some m => m
            | none => "API error"
          ⟨tr ++ [.closeBody], .error (.api
            { StatusCode := resp.StatusCode, ErrorCode := apiResp.Status.ErrorCode,
              Message := errorMsg })⟩
        else ⟨tr ++ [.closeBody], .ok apiResp⟩

/-! ## `APIError.Error` (`client.go`, lines 283-289) -/

/-- Function `strconv.Itoa`, which is also the verb `%d` of `fmt.Sprintf` on an `int`:
the decimal digits, after a minus sign for a negative number. -/
def Itoa (i : Int) : String := toString i

/-- Method `(*APIError).Error`. -/
def APIError.Error (e : APIError) : String :=
  if e.ErrorCode ≠ 0 then
    "API error " ++ Itoa e.ErrorCode ++ " (HTTP " ++ Itoa e.StatusCode ++ "): " ++ e.Message
  else
    "HTTP error " ++ Itoa e.StatusCode ++ ": " ++ e.Message

/-! ## Construction of the client (`client.go`, lines 29-121) -/

/-- Constant `DefaultTimeout = 30 * time.Second`. -/
def DefaultTimeout : Int := 30 * Second

/-- Constant `DefaultRateLimit`, in requests per minute. -/
def DefaultRateLimit : Nat := 30

/-- Type `ClientConfig`; a `rate.Limit` is kept as a rational number of requests per
second. -/
structure ClientConfig where
  APIKey : String
  BaseURL : String
  HTTPClient : HttpClient
  RateLimit : ℚ
  Sandbox : Bool
  UserAgent : String
deriving DecidableEq

/-- Type `Option`, a `func(*ClientConfig)`: the configuration after the call, as a
function of the configuration before it. -/
abbrev ClientOption := ClientConfig → ClientConfig

/-- Function `WithAPIKey`. -/
def WithAPIKey (apiKey : String) : ClientOption :=
  fun c => { c with APIKey := apiKey }

/-- Function `WithBaseURL`. -/
def WithBaseURL (baseURL : String) : ClientOption :=
  fun c => { c with BaseURL := baseURL }

/-- Function `WithHTTPClient`. -/
def WithHTTPClient (client : HttpClient) : ClientOption :=
  fun c => { c with HTTPClient := client }

/-- Function `WithRateLimit`. -/
def WithRateLimit (limit : ℚ) : ClientOption :=
  fun c => { c with RateLimit := limit }

/-- Function `WithSandbox`. -/
def WithSandbox (sandbox : Bool) : ClientOption :=
  fun c =>
    let c1 := { c with Sandbox := sandbox }
    if sandbox then { c1 with BaseURL := SandboxBaseURL } else c1

/-- Function `WithUserAgent`. -/
def WithUserAgent (userAgent : String) : ClientOption :=
  fun c => { c with UserAgent := userAgent }

/-- The configuration with which `NewClient` starts (lines 99-104). -/
def defaultConfig : ClientConfig :=
  { APIKey := ""
    BaseURL := DefaultBaseURL
    HTTPClient := { Timeout := DefaultTimeout }
    RateLimit := (DefaultRateLimit : ℚ) / 60
    Sandbox := false
    UserAgent := "go-coinmarketcap/1.0" }

/-- Function `NewClient`. -/
def NewClient (opts : List ClientOption) : Client :=
  let config := opts.foldl (fun cfg opt => opt cfg) defaultConfig
  let config := if config.Sandbox then { config with BaseURL := SandboxBaseURL } else config
  { apiKey := config.APIKey
    baseURL := config.BaseURL
    httpClient := config.HTTPClient
    rateLimiter := { limit := config.RateLimit, burst := 1 }
    userAgent := config.UserAgent }

/-! ## Parameter builder (`client.go`, lines 316-391; `helpers.go`) -/

/-- Method `url.Values.Add`: `v[key] = append(v[key], value)`. -/
def valuesAdd (v : Values) (key value : String) : Values :=
  if v.any (fun p => p.1 = key) then
    v.map fun p => if p.1 = key then (p.1, p.2 ++ [value]) else p
  else v ++ [(key, [value])]

/-- The map access `v[key]`: the values under the key, none when the key is absent. -/
def valuesGetAll (v : Values) (key : String) : List String :=
  (v.lookup key).getD []

/-- Method `url.Values.Get`: the first value under the key, `""` when there is none. -/
def valuesGet (v : Values) (key : String) : String :=
  (valuesGetAll v key).headD ""

/-- Method `url.Values.Has`: the key is in the map. -/
def valuesHas (v : Values) (key : String) : Bool :=
  v.any fun p => p.1 = key

/-- A Go `float64`, given by its IEEE 754 bit pattern. -/
structure Float64 where
  bits : Nat
deriving DecidableEq, Repr

/-- Type `ParamBuilder`, as made by `NewParamBuilder`: its map is not nil. -/
structure ParamBuilder where
  values : Values
deriving DecidableEq, Repr

/-- Function `NewParamBuilder`. -/
def NewParamBuilder : ParamBuilder := { values := [] }

/-- Method `(*ParamBuilder).Add`. -/
def ParamBuilder.Add (p : ParamBuilder) (key value : String) : ParamBuilder :=
  if value ≠ "" then { values := valuesAdd p.values key value } else p

/-- Method `(*ParamBuilder).AddInt`; a nil pointer is `none`. -/
def ParamBuilder.AddInt (p : ParamBuilder) (key : String) (value : Option Int) :
    ParamBuilder :=
  match value with
  | some i => { values := valuesAdd p.values key (Itoa i) }
  | none => p

/-- Method `(*ParamBuilder).AddFloat`; `formatFloat v` is
`strconv.FormatFloat(v, 'f', -1, 64)`. -/
def ParamBuilder.AddFloat (formatFloat : Float64 → String) (p : ParamBuilder)
    (key : String) (value : Option Float64) : ParamBuilder :=
  match value with
  | some f => { values := valuesAdd p.values key (formatFloat f) }
  | none => p

/-- Function `strconv.FormatBool`. -/
def FormatBool (b : Bool) : String := if b then "true" else "false"

/-- Method `(*ParamBuilder).AddBool`. -/
def ParamBuilder.AddBool (p : ParamBuilder) (key : String) (value : Option Bool) :
    ParamBuilder :=
  match value with
  | some b => { values := valuesAdd p.values key (FormatBool b) }
  | none => p

/-- Method `(*ParamBuilder).AddStringSlice`; a nil slice is the empty list. -/
def ParamBuilder.AddStringSlice (p : ParamBuilder) (key : String) (values : List String) :
    ParamBuilder :=
  if values.length > 0 then { values := valuesAdd p.values key (",".intercalate values) }
  else p

/-- Method `(*ParamBuilder).AddIntSlice`. -/
def ParamBuilder.AddIntSlice (p : ParamBuilder) (key : String) (values : List Int) :
    ParamBuilder :=
  if values.length > 0 then
    let stringValues := values.map Itoa
    { values := valuesAdd p.values key (",".intercalate stringValues) }
  else p

/-- Method `(*ParamBuilder).AddTime`; `formatTime t` is `t.Format(time.RFC3339)`. -/
def ParamBuilder.AddTime {Time : Type} (formatTime : Time → String) (p : ParamBuilder)
    (key : String) (value : Option Time) : ParamBuilder :=
  match value with
  | some t => { values := valuesAdd p.values key (formatTime t) }
  | none => p

/-- Method `(*ParamBuilder).Build`. -/
def ParamBuilder.Build (p : ParamBuilder) : Values := p.values

/-- Function `Int` of `helpers.go`: a pointer to the value. -/
def IntPtr (i : Int) : Option Int := some i

/-- Function `Bool` of `helpers.go`: a pointer to the value. -/
def BoolPtr (b : Bool) : Option Bool := some b

/-- Function `String` of `helpers.go`: a pointer to the value. -/
def StringPtr (s : String) : Option String := some s

/-! ## Endpoint wrappers (`cryptocurrency.go`, lines 7-115) -/

/-- Constant `StatusActive` of type `ListingStatus`, a `string`. -/
def StatusActive : String := "active"

/-- Type `CryptocurrencyMapOptions`; a nil pointer is `none`, a nil slice is `[]`. -/
structure CryptocurrencyMapOptions where
  ListingStatus : Option String
  Start : Option Int
  Limit : Option Int
  «Sort» : Option String
  Symbol : List String
  Aux : List String
deriving DecidableEq, Repr

/-- The parameter set built by `GetCryptocurrencyMap` (lines 17-28).  The expression
`*opts.Sort` of line 25 is evaluated before the call of `Add`: on a nil pointer it
panics. -/
def cryptocurrencyMapParams (opts : Option CryptocurrencyMapOptions) : Outcome Values :=
  let params := NewParamBuilder
  match opts with
  | none => .ok params.Build
  | some o =>
    let params1 := match o.ListingStatus with
      | some ls => params.Add "listing_status" ls
      | none => params
    let params2 := params1.AddInt "start" o.Start
    let params3 := params2.AddInt "limit" o.Limit
    match o.«Sort» with
    | none => .panic
    | some sort =>
      let params4 := params3.Add "sort" sort
      let params5 := params4.AddStringSlice "symbol" o.Symbol
      let params6 := params5.AddStringSlice "aux" o.Aux
      .ok params6.Build

/-- Method `(*Client).GetCryptocurrencyMap` (lines 16-33). -/
def GetCryptocurrencyMap {T : Type} (lib : Lib T) (c : Client) (env : Env)
    (opts : Option CryptocurrencyMapOptions) : Run (APIResponse T) :=
  match cryptocurrencyMapParams opts with
  | .ok q => get lib c env "/v1/cryptocurrency/map" (some { QueryParams := some q, Headers := none })
  | .error err => ⟨[], .error err⟩
  | .panic => ⟨[], .panic⟩

/-- Type `CryptocurrencyListingsOptions`; `ListingSort`, `SortDirection` and
`CryptocurrencyType` are `string` types. -/
structure CryptocurrencyListingsOptions where
  Start : Option Int
  Limit : Option Int
  PriceMin : Option Float64
  PriceMax : Option Float64
  MarketCapMin : Option Float64
  MarketCapMax : Option Float64
  Volume24hMin : Option Float64
  Volume24hMax : Option Float64
  CirculatingSupplyMin : Option Float64
  CirculatingSupplyMax : Option Float64
  PercentChange24hMin : Option Float64
  PercentChange24hMax : Option Float64
  Convert : List String
  ConvertID : List Int
  «Sort» : Option String
  SortDir : Option String
  CryptocurrencyType : Option String
  Tag : Option String
  Aux : List String
deriving DecidableEq, Repr

/-- The parameter set built by `GetCryptocurrencyListingsLatest` (lines 82-110).  The
expression `*opts.Tag` of line 108 panics on a nil pointer. -/
def cryptocurrencyListingsParams (formatFloat : Float64 → String)
    (opts : Option CryptocurrencyListingsOptions) : Outcome Values :=
  let params := NewParamBuilder
  match opts with
  | none => .ok params.Build
  | some o =>
    let p1 := params.AddInt "start" o.Start
    let p2 := p1.AddInt "limit" o.Limit
    let p3 := p2.AddFloat formatFloat "price_min" o.PriceMin
    let p4 := p3.AddFloat formatFloat "price_max" o.PriceMax
    let p5 := p4.AddFloat formatFloat "market_cap_min" o.MarketCapMin
    let p6 := p5.AddFloat formatFloat "market_cap_max" o.MarketCapMax
    let p7 := p6.AddFloat formatFloat "volume_24h_min" o.Volume24hMin
    let p8 := p7.AddFloat formatFloat "volume_24h_max" o.Volume24hMax
    let p9 := p8.AddFloat formatFloat "circulating_supply_min" o.CirculatingSupplyMin
    let p10 := p9.AddFloat formatFloat "circulating_supply_max" o.CirculatingSupplyMax
    let p11 := p10.AddFloat formatFloat "percent_change_24h_min" o.PercentChange24hMin
    let p12 := p11.AddFloat formatFloat "percent_change_24h_max" o.PercentChange24hMax
    let p13 := p12.AddStringSlice "convert" o.Convert
    let p14 := p13.AddIntSlice "convert_id" o.ConvertID
    let p15 := match o.«Sort» with
      | some v => p14.Add "sort" v
      | none => p14
    let p16 := match o.SortDir with
      | some v => p15.Add "sort_dir" v
      | none => p15
    let p17 := match o.CryptocurrencyType with
      | some v => p16.Add "cryptocurrency_type" v
      | none => p16
    match o.Tag with
    | none => .panic
    | some tag =>
      let p18 := p17.Add "tag" tag
      let p19 := p18.AddStringSlice "aux" o.Aux
      .ok p19.Build

/-- Method `(*Client).GetCryptocurrencyListingsLatest` (lines 81-115). -/
def GetCryptocurrencyListingsLatest {T : Type} (lib : Lib T) (formatFloat : Float64 → String)
    (c : Client) (env : Env) (opts : Option CryptocurrencyListingsOptions) :
    Run (APIResponse T) :=
  match cryptocurrencyListingsParams formatFloat opts with
  | .ok q =>
    get lib c env "/v1/cryptocurrency/listings/latest"
      (some { QueryParams := some q, Headers := none })
  | .error err => ⟨[], .error err⟩
  | .panic => ⟨[], .panic⟩

/-! ## Vocabulary of the statements -/

/-- Holds when the loop body at index `attempt` ends in `continue` on this answer of
the transport: a transport failure or a 429 response, with a retry left. -/
def isRetried (attempt : Nat) : Except GoError Response → Bool
  | .error _ => decide (attempt < MaxRetries)
  | .ok resp => decide (resp.StatusCode = StatusTooManyRequests ∧ attempt < MaxRetries)

/-- The steps of the loop body at index `attempt` when it ends in `continue`. -/
def retrySteps (req : Request) (attempt : Nat) : Except GoError Response → List Event
  | .error _ => [.send req, .sleep (backoff attempt)]
  | .ok resp => [.send req, .closeBody, .sleep (retryAfterDelay resp attempt)]

/-- The argument of the `time.Sleep` call of the loop body at index `attempt` when it
ends in `continue`. -/
def retryDelay (attempt : Nat) : Except GoError Response → Int
  | .error _ => backoff attempt
  | .ok resp => retryAfterDelay resp attempt

/-- The steps of the loop before index `k` when each of these attempts is retried. -/
def retryTrace (env : Env) (req : Request) (k : Nat) : List Event :=
  (List.range k).flatMap fun i => retrySteps req i (env.Do i req)

/-- The call gets as far as the retry loop: the limiter grants a token and the
request is created. -/
def Started {T : Type} (lib : Lib T) (c : Client) (env : Env) (endpoint : String)
    (opts : Option RequestOptions) : Prop :=
  env.limiterWait = none ∧ lib.newRequestError (requestURL lib c endpoint opts) = none

/-- The response `resp` ends the retry loop at index `k`: every earlier attempt was
retried, and the transport answers `resp` at index `k`, which is not retried. -/
def EndsLoop (env : Env) (req : Request) (k : Nat) (resp : Response) : Prop :=
  k ≤ MaxRetries ∧ (∀ i, i < k → isRetried i (env.Do i req) = true) ∧
    env.Do k req = .ok resp ∧ isRetried k (.ok resp) = false

/-- The requests handed to `httpClient.Do` in a trace, in order. -/
def sentRequests : List Event → List Request
  | [] => []
  | .send req :: tr => req :: sentRequests tr
  | _ :: tr => sentRequests tr

/-- The call is made without headers of the caller: the options are nil, or their
`Headers` map is nil or empty. -/
def NoCallerHeaders (opts : Option RequestOptions) : Prop :=
  opts = none ∨ ∃ o, opts = some o ∧ (o.Headers = none ∨ o.Headers = some [])

/-- The four header names that `doRequest` sets have pairwise different canonical
forms. -/
def DistinctDefaultHeaders (canon : String → String) : Prop :=
  (["Accept", "Accept-Encoding", "User-Agent", "X-CMC_PRO_API_KEY"].map canon).Nodup

/-- An entry of the option list of a caller: one of the six `With...` functions
with its argument. -/
inductive OptionSpec where
  | withAPIKey (apiKey : String)
  | withBaseURL (baseURL : String)
  | withHTTPClient (client : HttpClient)
  | withRateLimit (limit : ℚ)
  | withSandbox (sandbox : Bool)
  | withUserAgent (userAgent : String)
deriving DecidableEq

/-- The `Option` value that the entry denotes. -/
def OptionSpec.toOption : OptionSpec → ClientOption
  | .withAPIKey apiKey => WithAPIKey apiKey
  | .withBaseURL baseURL => WithBaseURL baseURL
  | .withHTTPClient client => WithHTTPClient client
  | .withRateLimit limit => WithRateLimit limit
  | .withSandbox sandbox => WithSandbox sandbox
  | .withUserAgent userAgent => WithUserAgent userAgent

/-- The argument of the last `WithAPIKey` of the list, if the list has one. -/
def lastAPIKey (specs : List OptionSpec) : Option String :=
  (specs.filterMap fun o => match o with
    | .withAPIKey apiKey => some apiKey
    | _ => none).getLast?

/-- The argument of the last `WithBaseURL` of the list, if the list has one. -/
def lastBaseURL (specs : List OptionSpec) : Option String :=
  (specs.filterMap fun o => match o with
    | .withBaseURL baseURL => some baseURL
    | _ => none).getLast?

/-- The argument of the last `WithRateLimit` of the list, if the list has one. -/
def lastRateLimit (specs : List OptionSpec) : Option ℚ :=
  (specs.filterMap fun o => match o with
    | .withRateLimit limit => some limit
    | _ => none).getLast?

/-- The argument of the last `WithSandbox` of the list, if the list has one. -/
def lastSandbox (specs : List OptionSpec) : Option Bool :=
  (specs.filterMap fun o => match o with
    | .withSandbox sandbox => some sandbox
    | _ => none).getLast?

/-- The argument of the last `WithUserAgent` of the list, if the list has one. -/
def lastUserAgent (specs : List OptionSpec) : Option String :=
  (specs.filterMap fun o => match o with
    | .withUserAgent userAgent => some userAgent
    | _ => none).getLast?

/-! ## A test double for the library

The tests of `client_test.go` run the pipeline against `httptest` servers.  The
definitions below play the same part for the library: a decoder for a fragment of JSON
that follows the documented behaviour of `encoding/json`, together with
`textproto.CanonicalMIMEHeaderKey`, `url.Values.Encode` and a `gzip.NewReader` for
bodies that are not gzip streams.  They are used at concrete inputs only; every
general theorem quantifies over all of `Lib`.

The fragment: objects, arrays, strings with the two-character escapes, integers,
`true`, `false`, `null`.  Numbers with a fraction or an exponent and `\u` escapes are
outside the fragment and are reported as syntax errors.  Object keys are compared
exactly with the struct tags, and the text of a timestamp is kept as it is. -/

/-- A JSON value of the fragment. -/
inductive Json where
  | null
  | bool (b : Bool)
  | num (n : Int)
  | str (s : String)
  | arr (xs : List Json)
  | obj (kvs : List (String × Json))
deriving Repr

/-- Skip JSON white space. -/
def skipWS : List Char → List Char
  | ch :: rest =>
    if ch = ' ' ∨ ch = '\n' ∨ ch = '\t' ∨ ch = '\r' then skipWS rest else ch :: rest
  | [] => []

/-- Read a string literal after its opening quote. -/
def scanString : List Char → List Char → Option (String × List Char)
  | [], _ => none
  | '"' :: rest, acc => some (String.mk acc.reverse, rest)
  | '\\' :: ch :: rest, acc =>
    if ch = '"' ∨ ch = '\\' ∨ ch = '/' then scanString rest (ch :: acc)
    else if ch = 'n' then scanString rest ('\n' :: acc)
    else if ch = 't' then scanString rest ('\t' :: acc)
    else if ch = 'r' then scanString rest ('\r' :: acc)
    else none
  | ch :: rest, acc => if ch.toNat < 32 then none else scanString rest (ch :: acc)

/-- Read a run of decimal digits. -/
def scanDigits : List Char → Nat → Nat × List Char
  | ch :: rest, acc =>
    if ch.isDigit then scanDigits rest (acc * 10 + (ch.toNat - 48)) else (acc, ch :: rest)
  | [], acc => (acc, [])

/-- Holds when the text goes on with a fraction or an exponent. -/
def startsNumberTail : List Char → Bool
  | ch :: _ => ch = '.' ∨ ch = 'e' ∨ ch = 'E'
  | [] => false

/-- Read the digits of an integer: no leading zero before another digit. -/
def scanNat : List Char → Option (Nat × List Char)
  | '0' :: rest =>
    match rest with
    | d :: _ => if d.isDigit ∨ startsNumberTail rest then none else some (0, rest)
    | [] => some (0, [])
  | d :: rest =>
    if d.isDigit then
      let r := scanDigits (d :: rest) 0
      if startsNumberTail r.2 then none else some r
    else none
  | [] => none

/-- Read an integer literal. -/
def scanInt : List Char → Option (Int × List Char)
  | '-' :: rest => (scanNat rest).map fun r => (-(r.1 : Int), r.2)
  | cs => (scanNat cs).map fun r => ((r.1 : Int), r.2)

mutual
/-- Read one JSON value; the first argument bounds the number of nested calls. -/
def parseValue : Nat → List Char → Option (Json × List Char)
  | 0, _ => none
  | fuel + 1, cs =>
    match skipWS cs with
    | 'n' :: 'u' :: 'l' :: 'l' :: rest => some (.null, rest)
    | 't' :: 'r' :: 'u' :: 'e' :: rest => some (.bool true, rest)
    | 'f' :: 'a' :: 'l' :: 's' :: 'e' :: rest => some (.bool false, rest)
    | '"' :: rest => (scanString rest []).map fun r => (.str r.1, r.2)
    | '[' :: rest =>
      match skipWS rest with
      | ']' :: rest2 => some (.arr [], rest2)
      | _ => (parseElems fuel rest).map fun r => (.arr r.1, r.2)
    | '\x7b' :: rest =>
      match skipWS rest with
      | '\x7d' :: rest2 => some (.obj [], rest2)
      | _ => (parseMembers fuel rest).map fun r => (.obj r.1, r.2)
    | cs2 => (scanInt cs2).map fun r => (.num r.1, r.2)
/-- Read the elements of a non-empty array up to the closing bracket. -/
def parseElems : Nat → List Char → Option (List Json × List Char)
  | 0, _ => none
  | fuel + 1, cs =>
    match parseValue fuel cs with
    | none => none
    | some (v, rest) =>
      match skipWS rest with
      | ',' :: rest2 => (parseElems fuel rest2).map fun r => (v :: r.1, r.2)
      | ']' :: rest2 => some ([v], rest2)
      | _ => none
/-- Read the members of a non-empty object up to the closing brace. -/
def parseMembers : Nat → List Char → Option (List (String × Json) × List Char)
  | 0, _ => none
  | fuel + 1, cs =>
    match skipWS cs with
    | '"' :: rest =>
      match scanString rest [] with
      | none => none
      | some (k, rest1) =>
        match skipWS rest1 with
        | ':' :: rest2 =>
          match parseValue fuel rest2 with
          | none => none
          | some (v, rest3) =>
            match skipWS rest3 with
            | ',' :: rest4 => (parseMembers fuel rest4).map fun r => ((k, v) :: r.1, r.2)
            | '\x7d' :: rest4 => some ([(k, v)], rest4)
            | _ => none
        | _ => none
    | _ => none
end

/-- Parse a whole body: one value, then white space only. -/
def parseJSON (s : String) : Option Json :=
  match parseValue (2 * s.length + 2) s.toList with
  | some (v, rest) => if (skipWS rest).isEmpty then some v else none
  | none => none

/-- Holds when the integer fits the 64-bit `int`. -/
def fitsInt64 (n : Int) : Bool := decide (-(2 ^ 63) ≤ n ∧ n < 2 ^ 63)

/-- The zero value of `Status`. -/
def zeroStatus : Status :=
  { Timestamp := "", ErrorCode := 0, ErrorMessage := none, Elapsed := 0, CreditCount := 0 }

/-- Decode one member of a status object into the struct: `null` leaves a value
field as it is and clears the pointer field, a value of the wrong type is an error,
an unknown key is skipped. -/
def setStatusField (st : Status) (kv : String × Json) : Option Status :=
  match kv.1, kv.2 with
  | "timestamp", .null => some st
  | "timestamp", .str s => some { st with Timestamp := s }
  | "timestamp", _ => none
  | "error_code", .null => some st
  | "error_code", .num n => if fitsInt64 n then some { st with ErrorCode := n } else none
  | "error_code", _ => none
  | "error_message", .null => some { st with ErrorMessage := none }
  | "error_message", .str s => some { st with ErrorMessage := some s }
  | "error_message", _ => none
  | "elapsed", .null => some st
  | "elapsed", .num n => if fitsInt64 n then some { st with Elapsed := n } else none
  | "elapsed", _ => none
  | "credit_count", .null => some st
  | "credit_count", .num n => if fitsInt64 n then some { st with CreditCount := n } else none
  | "credit_count", _ => none
  | _, _ => some st

/-- Decode a JSON value into a `Status` variable. -/
def decodeStatus (st : Status) : Json → Option Status
  | .null => some st
  | .obj kvs => kvs.foldlM setStatusField st
  | _ => none

/-- The error of `json.Unmarshal` on a body that is not JSON. -/
def jsonSyntaxError : GoError := .plain "json: syntax error"

/-- The error of `json.Unmarshal` on JSON of the wrong shape. -/
def jsonTypeError : GoError := .plain "json: cannot unmarshal value into Go value"

/-- Function `json.Unmarshal(body, &errorResp)` with `errorResp` of type
`struct { Status Status }`, on the fragment. -/
def unmarshalStatus (body : String) : Except GoError Status :=
  match parseJSON body with
  | none => .error jsonSyntaxError
  | some .null => .ok zeroStatus
  | some (.obj kvs) =>
    match kvs.foldlM
      (fun st kv => if kv.1 = "status" then decodeStatus st kv.2 else some st) zeroStatus with
    | some st => .ok st
    | none => .error jsonTypeError
  | some _ => .error jsonTypeError

/-- Function `json.Unmarshal(body, &apiResp)` with `apiResp` of type `APIResponse[T]`,
on the fragment; `decodeData` decodes a JSON value into a variable of type `T` and
`zero` is the zero value of `T`. -/
def unmarshalResponse {T : Type} (decodeData : T → Json → Option T) (zero : T)
    (body : String) : Except GoError (APIResponse T) :=
  match parseJSON body with
  | none => .error jsonSyntaxError
  | some .null => .ok { Data := zero, Status := zeroStatus }
  | some (.obj kvs) =>
    match kvs.foldlM
      (fun (r : APIResponse T) kv =>
        if kv.1 = "data" then (decodeData r.Data kv.2).map fun d => { r with Data := d }
        else if kv.1 = "status" then (decodeStatus r.Status kv.2).map fun st => { r with Status := st }
        else some r)
      { Data := zero, Status := zeroStatus } with
    | some r => .ok r
    | none => .error jsonTypeError
  | some _ => .error jsonTypeError

/-- The payload type `map[string]interface{}` of the tests: keys with their values. -/
abbrev JsonMap := List (String × Json)

/-- Decode a JSON value into a `map[string]interface{}` variable: `null` sets the
map to nil, an object stores its members into the map. -/
def decodeJsonMap (m : JsonMap) : Json → Option JsonMap
  | .null => some []
  | .obj kvs => some (kvs.foldl (fun acc kv => acc.filter (fun p => p.1 ≠ kv.1) ++ [kv]) m)
  | _ => none

/-- Holds for the bytes allowed in a header field name. -/
def isTokenChar (c : Char) : Bool :=
  c.isAlphanum || "!#$%&*+-.^_|~".toList.contains c || c.toNat = 39 || c.toNat = 96

/-- The letter case of a canonical header key, letter by letter. -/
def canonLoop : List Char → Bool → List Char
  | [], _ => []
  | c :: rest, upper =>
    (if upper then c.toUpper else c.toLower) :: canonLoop rest (c = '-')

/-- Function `textproto.CanonicalMIMEHeaderKey`. -/
def CanonicalMIMEHeaderKey (s : String) : String :=
  if s.toList.all isTokenChar then String.mk (canonLoop s.toList true) else s

/-- Upper-case hexadecimal digit. -/
def hexUpper (n : Nat) : Char := "0123456789ABCDEF".toList.getD n '0'

/-- One byte of `url.QueryEscape`. -/
def escapeByte (b : UInt8) : List Char :=
  let c := Char.ofNat b.toNat
  if c.isAlphanum ∨ c = '-' ∨ c = '_' ∨ c = '.' ∨ c = '~' then [c]
  else if c = ' ' then ['+']
  else ['%', hexUpper (b.toNat / 16), hexUpper (b.toNat % 16)]

/-- Function `url.QueryEscape`. -/
def QueryEscape (s : String) : String :=
  String.mk (s.toList.flatMap fun ch => (String.utf8EncodeChar ch).flatMap escapeByte)

/-- The order in which `sort.Strings` puts two keys: byte by byte, which for UTF-8 is
character by character. -/
def keyLe : List Char → List Char → Bool
  | [], _ => true
  | _ :: _, [] => false
  | a :: as, b :: bs =>
    if a.toNat < b.toNat then true
    else if a.toNat = b.toNat then keyLe as bs
    else false

/-- Method `url.Values.Encode`: sorted by key, `key=value` joined by `&`. -/
def Encode (v : Values) : String :=
  "&".intercalate ((v.insertionSort fun a b => keyLe a.1.toList b.1.toList = true).flatMap
    fun kv => kv.2.map fun x => QueryEscape kv.1 ++ "=" ++ QueryEscape x)

/-- Function `gzip.NewReader` on a stream that is not gzip data: `io.EOF` on an
empty stream, `gzip.ErrHeader` otherwise. -/
def gzipNewReaderPlain (r : Reader) : Except GoError Reader :=
  if r.data = "" then .error (r.err.getD (.plain "EOF"))
  else .error (.plain "gzip: invalid header")

/-- The test double: every URL is accepted and no body is a gzip stream. -/
def testLib : Lib JsonMap :=
  { encodeValues := Encode
    canonicalHeaderKey := CanonicalMIMEHeaderKey
    newRequestError := fun _ => none
    gzipNewReader := gzipNewReaderPlain
    unmarshalStatus := unmarshalStatus
    unmarshalResponse := unmarshalResponse decodeJsonMap [] }

/-- A client as built by the tests. -/
def testClient : Client :=
  { apiKey := "test-key", baseURL := "http://127.0.0.1:8080",
    httpClient := { Timeout := 30 * Second },
    rateLimiter := { limit := 1000, burst := 1 }, userAgent := "go-coinmarketcap/1.0" }

/-- A plain (not compressed) response with the given status and body. -/
def plainResponse (status : Int) (body : String) : Response :=
  { StatusCode := status, ContentEncoding := "", RetryAfter := "",
    Body := { data := body, err := none } }

/-- A world in which the limiter grants a token and the transport plays a script:
the answer at loop index `i` is the `i`-th entry, the last entry ever after. -/
def scriptEnv (script : List (Except GoError Response)) : Env :=
  { limiterWait := none
    Do := fun attempt _ =>
      script.getD attempt (script.getLastD (.error (.plain "connection refused"))) }

/-! ### A gzip reader for stored blocks

`gzip.NewReader` and the reads that follow it, on the fragment of gzip streams that
hold one member with a plain header (no name, comment or extra field) and one stored
(uncompressed) deflate block, checked against its CRC-32 and its length as
`compress/gzip` does.  A stream is written with one character per byte.  Streams
with compressed blocks are outside the fragment and are reported as errors. -/

/-- One bit of the CRC-32 of IEEE 802.3, reflected form. -/
def crc32Bit (crc : Nat) : Nat :=
  if crc % 2 = 1 then (crc / 2) ^^^ 0xEDB88320 else crc / 2

/-- One byte of the CRC-32. -/
def crc32Byte (crc b : Nat) : Nat :=
  crc32Bit (crc32Bit (crc32Bit (crc32Bit (crc32Bit (crc32Bit (crc32Bit (crc32Bit
    (crc ^^^ b))))))))

/-- The loop of `crc32.Update` over the bytes; the running value is evaluated at each
byte before the next one is read. -/
def crc32Update : Nat → List Nat → Nat
  | crc, [] => crc
  | crc, b :: bs =>
    match crc32Byte crc b with
    | 0 => crc32Update 0 bs
    | n + 1 => crc32Update (n + 1) bs

/-- Function `crc32.ChecksumIEEE`. -/
def crc32 (bs : List Nat) : Nat :=
  (crc32Update 0xFFFFFFFF bs) ^^^ 0xFFFFFFFF

/-- A 32-bit number in little-endian bytes. -/
def le32 : List Nat → Nat
  | [b0, b1, b2, b3] => b0 + 256 * b1 + 65536 * b2 + 16777216 * b3
  | _ => 0

/-- The stored block after the gzip header: the bytes `01 LEN NLEN`, `LEN` bytes of
data, then the CRC-32 and the length of the data.  The reader yields the data, and an
error when the block is cut short or a check fails. -/
def readStoredBlock (cs : List Char) (streamErr : Option GoError) : Reader :=
  match cs with
  | h :: l0 :: l1 :: n0 :: n1 :: rest =>
    let len := l0.toNat + 256 * l1.toNat
    if h.toNat ≠ 1 ∨ n0.toNat + 256 * n1.toNat + len ≠ 65535 then
      { data := "", err := some (.plain "flate: corrupt input") }
    else if rest.length < len + 8 then
      { data := String.mk (rest.take len),
        err := some (streamErr.getD (.plain "unexpected EOF")) }
    else if rest.length > len + 8 then
      { data := String.mk (rest.take len), err := some (.plain "gzip: invalid header") }
    else if le32 (((rest.drop len).take 4).map Char.toNat) ≠
          crc32 ((rest.take len).map Char.toNat) ∨
        le32 (((rest.drop (len + 4)).take 4).map Char.toNat) ≠ len then
      { data := String.mk (rest.take len), err := some (.plain "gzip: invalid checksum") }
    else { data := String.mk (rest.take len), err := streamErr }
  | _ => { data := "", err := some (streamErr.getD (.plain "unexpected EOF")) }

/-- Function `gzip.NewReader` on the fragment: the header is the magic bytes `1f 8b`,
the method 8 and no flags, followed by six bytes that are not interpreted. -/
def gzipNewReaderStored (r : Reader) : Except GoError Reader :=
  match r.data.toList with
  | m0 :: m1 :: cm :: flg :: _ :: _ :: _ :: _ :: _ :: _ :: deflate =>
    if m0.toNat = 31 ∧ m1.toNat = 139 ∧ cm.toNat = 8 ∧ flg.toNat = 0 then
      .ok (readStoredBlock deflate r.err)
    else .error (.plain "gzip: invalid header")
  | [] => .error (r.err.getD (.plain "EOF"))
  | _ => .error (r.err.getD (.plain "unexpected EOF"))

/-- The test double with the gzip reader for stored blocks. -/
def gzipLib : Lib JsonMap :=
  { testLib with gzipNewReader := gzipNewReaderStored }

/-- A response announced as gzip whose stream is the given bytes. -/
def gzipResponse (status : Int) (stream : String) : Response :=
  { StatusCode := status, ContentEncoding := "gzip", RetryAfter := "",
    Body := { data := stream, err := none } }

/-- The gzip stream with a plain header and one stored block that `zlib` writes at
level 0 for the body of the success test, `{"data":{"test":"value"},"status":{"error_code":0}}`. -/
def gzipSuccessBody : String :=
  "\x1f\x8b\x08\x00\x00\x00\x00\x00\x04\x03\x01\x33\x00\xcc\xff" ++
    "\x7b\"data\":\x7b\"test\":\"value\"\x7d,\"status\":\x7b\"error_code\":0\x7d\x7d" ++
    "\x0f\xad\x45\x3b\x33\x00\x00\x00"

/-- The gzip stream that `zlib` writes at level 0 for the body of the error test,
`{"status":{"error_code":1001,"error_message":"API key invalid"}}`. -/
def gzipErrorBody : String :=
  "\x1f\x8b\x08\x00\x00\x00\x00\x00\x04\x03\x01\x40\x00\xbf\xff" ++
    "\x7b\"status\":\x7b\"error_code\":1001,\"error_message\":\"API key invalid\"\x7d\x7d" ++
    "\x03\xaf\xb8\xf5\x40\x00\x00\x00"

end CoinMarketCap

/-! ## The retry loop -/

namespace CoinMarketCap

theorem sendLoop_resp_irrelevant (env : Env) (req : Request) (a : Nat) (rest : List Nat)
    (r : Option Response) :
    sendLoop env req (a :: rest) r = sendLoop env req (a :: rest) none := by
  simp only [sendLoop]

theorem sendLoop_retry_step (env : Env) (req : Request) (a : Nat) (rest : List Nat)
    (r : Option Response) (h : isRetried a (env.Do a req) = true) :
    ∃ r1, sendLoop env req (a :: rest) r =
      (retrySteps req a (env.Do a req) ++ (sendLoop env req rest r1).1,
        (sendLoop env req rest r1).2) := by
  cases hd : env.Do a req with
  | error e =>
    rw [hd] at h
    have h1 : a < MaxRetries := by simpa [isRetried] using h
    exact ⟨none, by simp [sendLoop, hd, h1, retrySteps]⟩
  | ok resp =>
    rw [hd] at h
    have h1 : resp.StatusCode = StatusTooManyRequests ∧ a < MaxRetries := by
      simpa [isRetried] using h
    exact ⟨some resp, by simp [sendLoop, hd, h1, retrySteps]⟩

theorem sendLoop_retried_indices (env : Env) (req : Request) (a : Nat) (rest : List Nat) :
    ∀ (idxs : List Nat) (r : Option Response),
      (∀ i ∈ idxs, isRetried i (env.Do i req) = true) →
      sendLoop env req (idxs ++ a :: rest) r =
        (idxs.flatMap (fun i => retrySteps req i (env.Do i req)) ++
            (sendLoop env req (a :: rest) none).1,
          (sendLoop env req (a :: rest) none).2) := by
  intro idxs
  induction idxs with
  | nil =>
    intro r _
    simp only [List.nil_append, List.flatMap_nil]
    rw [sendLoop_resp_irrelevant]
  | cons b bs ih =>
    intro r h
    obtain ⟨r1, hr1⟩ := sendLoop_retry_step env req b (bs ++ a :: rest) r
      (h b (List.mem_cons_self _ _))
    have hbs : ∀ i ∈ bs, isRetried i (env.Do i req) = true :=
      fun i hi => h i (List.mem_cons_of_mem _ hi)
    rw [List.cons_append, hr1, ih r1 hbs]
    simp [List.flatMap_cons, List.append_assoc]

theorem sendLoop_last_response (env : Env) (req : Request) (a : Nat) (rest : List Nat)
    (r : Option Response) (resp : Response) (hd : env.Do a req = .ok resp)
    (h : isRetried a (.ok resp) = false) :
    sendLoop env req (a :: rest) r = ([.send req], .ok (some resp)) := by
  have h1 : ¬ (resp.StatusCode = StatusTooManyRequests ∧ a < MaxRetries) := by
    simpa [isRetried] using h
  simp only [sendLoop, hd]
  rw [if_neg h1]

theorem sendLoop_last_failure (env : Env) (req : Request) (a : Nat) (rest : List Nat)
    (r : Option Response) (e : GoError) (hd : env.Do a req = .error e)
    (h : ¬ a < MaxRetries) :
    sendLoop env req (a :: rest) r =
      ([.send req], .error (.wrapped "request failed after 4 attempts" e)) := by
  simp only [sendLoop, hd]
  rw [if_neg h]
  rfl

/-- The loop indices, split at an index `k` of the loop. -/
theorem range_split (k : Nat) (hk : k ≤ MaxRetries) :
    ∃ rest, List.range (MaxRetries + 1) = List.range k ++ k :: rest := by
  have hk3 : k ≤ 3 := hk
  interval_cases k
  · exact ⟨[1, 2, 3], by decide⟩
  · exact ⟨[2, 3], by decide⟩
  · exact ⟨[3], by decide⟩
  · exact ⟨[], by decide⟩

/-- The whole loop when the response `resp` ends it at index `k`. -/
theorem sendLoop_of_endsLoop (env : Env) (req : Request) (k : Nat) (resp : Response)
    (h : EndsLoop env req k resp) :
    sendLoop env req (List.range (MaxRetries + 1)) none =
      (retryTrace env req k ++ [.send req], .ok (some resp)) := by
  obtain ⟨hk, hretry, hd, hlast⟩ := h
  obtain ⟨rest, hrest⟩ := range_split k hk
  rw [hrest, sendLoop_retried_indices env req k rest (List.range k) none
    (fun i hi => hretry i (List.mem_range.mp hi)),
    sendLoop_last_response env req k rest none resp hd hlast]
  rfl

/-! ## From the loop to the result of the call -/

theorem reqOpts_eq (opts : Option RequestOptions) :
    opts.map (fun o => ({ QueryParams := o.QueryParams, Headers := o.Headers } :
      RequestOptions)) = opts := by
  cases opts <;> rfl

/-- The run of `doRequest` when the response `resp` ends the loop at index `k`. -/
theorem doRequest_of_endsLoop {T : Type} (lib : Lib T) (c : Client) (env : Env)
    (endpoint : String) (opts : Option RequestOptions) (k : Nat) (resp : Response)
    (hs : Started lib c env endpoint opts)
    (h : EndsLoop env (buildRequest lib c endpoint opts) k resp) :
    doRequest lib c env endpoint opts =
      if resp.StatusCode ≥ 400 then
        ⟨.limiterWait :: (retryTrace env (buildRequest lib c endpoint opts) k ++
            [.send (buildRequest lib c endpoint opts)]) ++ [.closeBody],
          .error (.api (httpError lib resp))⟩
      else
        ⟨.limiterWait :: (retryTrace env (buildRequest lib c endpoint opts) k ++
            [.send (buildRequest lib c endpoint opts)]), .ok resp⟩ := by
  obtain ⟨hw, hn⟩ := hs
  simp only [doRequest, hw, hn, sendLoop_of_endsLoop env _ k resp h]

/-- The status code of the `APIError` built from a response. -/
theorem httpError_statusCode {T : Type} (lib : Lib T) (resp : Response) :
    (httpError lib resp).StatusCode = resp.StatusCode := by
  simp only [httpError]
  split
  · split <;> rfl
  · rfl

/-- The error code of the `APIError` built from a response: the code of the status
block when the body decodes, 0 otherwise. -/
theorem httpError_errorCode {T : Type} (lib : Lib T) (resp : Response) :
    (httpError lib resp).ErrorCode =
      match lib.unmarshalStatus (getResponseBody lib resp).1 with
      | .ok st => st.ErrorCode
      | .error _ => 0 := by
  simp only [httpError]
  split
  · split <;> rfl
  · rfl

/-- The run of `get` when `doRequest` fails. -/
theorem get_of_doRequest_error {T : Type} (lib : Lib T) (c : Client) (env : Env)
    (endpoint : String) (opts : Option RequestOptions) (tr : List Event) (err : GoError)
    (h : doRequest lib c env endpoint opts = ⟨tr, .error err⟩) :
    get lib c env endpoint opts = ⟨tr, .error err⟩ := by
  simp only [get, reqOpts_eq, h]

/-- The result of `get` on a response with status at least 400 that ends the loop. -/
theorem get_result_of_http_error {T : Type} (lib : Lib T) (c : Client) (env : Env)
    (endpoint : String) (opts : Option RequestOptions) (k : Nat) (resp : Response)
    (hs : Started lib c env endpoint opts)
    (h : EndsLoop env (buildRequest lib c endpoint opts) k resp)
    (hstatus : resp.StatusCode ≥ 400) :
    (get lib c env endpoint opts).result = .error (.api (httpError lib resp)) := by
  have hd := doRequest_of_endsLoop lib c env endpoint opts k resp hs h
  rw [if_pos hstatus] at hd
  rw [get_of_doRequest_error lib c env endpoint opts _ _ hd]

/-- The run of `doRequest` on a response with status below 400 that ends the loop. -/
theorem doRequest_of_success_status {T : Type} (lib : Lib T) (c : Client) (env : Env)
    (endpoint : String) (opts : Option RequestOptions) (k : Nat) (resp : Response)
    (hs : Started lib c env endpoint opts)
    (h : EndsLoop env (buildRequest lib c endpoint opts) k resp)
    (hstatus : resp.StatusCode < 400) :
    doRequest lib c env endpoint opts =
      ⟨.limiterWait :: (retryTrace env (buildRequest lib c endpoint opts) k ++
        [.send (buildRequest lib c endpoint opts)]), .ok resp⟩ := by
  have hd := doRequest_of_endsLoop lib c env endpoint opts k resp hs h
  rwa [if_neg (not_le.mpr hstatus)] at hd

/-- A response with status other than 429 is not retried. -/
theorem isRetried_of_ne_429 (k : Nat) (resp : Response)
    (h : resp.StatusCode ≠ StatusTooManyRequests) : isRetried k (.ok resp) = false := by
  simp [isRetried, h]

/-- The first answer of the transport ends the loop when it is not a 429 response. -/
theorem endsLoop_first (env : Env) (req : Request) (resp : Response)
    (hd : env.Do 0 req = .ok resp) (h : resp.StatusCode ≠ StatusTooManyRequests) :
    EndsLoop env req 0 resp :=
  ⟨Nat.zero_le _, fun i hi => absurd hi (Nat.not_lt_zero i), hd, isRetried_of_ne_429 0 resp h⟩

/-- An error wraps itself. -/
theorem wraps_self (e : GoError) : e.wraps e = true := by
  cases e <;> simp [GoError.wraps]

/-- The error built by `fmt.Errorf("...: %w", inner)` wraps `inner`. -/
theorem wrapped_wraps (msg : String) (inner : GoError) :
    (GoError.wrapped msg inner).wraps inner = true := by
  simp [GoError.wraps, wraps_self]

/-! ## Claims on the decoding of the response -/

/-- What `getResponseBody` returns on a body that is read without error: the bytes of
the stream when `Content-Encoding` is not gzip, the bytes that the gzip reader yields
when it is. -/
theorem getResponseBody_of_body {T : Type} (lib : Lib T) (resp : Response) (body : String)
    (h : (resp.ContentEncoding ≠ "gzip" ∧ resp.Body = { data := body, err := none }) ∨
      (resp.ContentEncoding = "gzip" ∧
        lib.gzipNewReader resp.Body = .ok { data := body, err := none })) :
    getResponseBody lib resp = (body, none) := by
  rcases h with ⟨hne, hb⟩ | ⟨heq, hgz⟩
  · simp only [getResponseBody]
    rw [if_neg hne, hb]
  · simp only [getResponseBody]
    rw [if_pos heq, hgz]

/-- The bytes that `getResponseBody` returns, whether or not it also returns an
error: the bytes of the stream when `Content-Encoding` is not gzip, the bytes that the
gzip reader yields when it is. -/
theorem getResponseBody_fst_of_body {T : Type} (lib : Lib T) (resp : Response)
    (body : String)
    (h : (resp.ContentEncoding ≠ "gzip" ∧ resp.Body.data = body) ∨
      (resp.ContentEncoding = "gzip" ∧
        ∃ gz, lib.gzipNewReader resp.Body = .ok gz ∧ gz.data = body)) :
    (getResponseBody lib resp).1 = body := by
  rcases h with ⟨hne, hb⟩ | ⟨heq, gz, hgz, hb⟩
  · simp only [getResponseBody]
    rw [if_neg hne]
    exact hb
  · simp only [getResponseBody]
    rw [if_pos heq, hgz]
    exact hb

/-- C1 (counterexample). A response with status 200 whose body is a JSON envelope
with `data` decodable as the payload type and a status block with `error_code` 0, but
with the member `elapsed` of the status block a string: `json.Unmarshal` rejects the
body for the envelope type, and `get` returns an error and no envelope. -/
theorem get_rejects_envelope_with_ill_typed_field :
    parseJSON
        "\x7b\"data\":\x7b\"test\":\"value\"\x7d,\"status\":\x7b\"error_code\":0,\"elapsed\":\"fast\"\x7d\x7d" =
      some (.obj [("data", .obj [("test", .str "value")]),
        ("status", .obj [("error_code", .num 0), ("elapsed", .str "fast")])]) ∧
    decodeJsonMap [] (.obj [("test", .str "value")]) = some [("test", .str "value")] ∧
    (plainResponse 200
        "\x7b\"data\":\x7b\"test\":\"value\"\x7d,\"status\":\x7b\"error_code\":0,\"elapsed\":\"fast\"\x7d\x7d"
      ).StatusCode < 400 ∧
    (get testLib testClient
      (scriptEnv [.ok (plainResponse 200
        "\x7b\"data\":\x7b\"test\":\"value\"\x7d,\"status\":\x7b\"error_code\":0,\"elapsed\":\"fast\"\x7d\x7d")])
      "/test" none).result =
      .error (.wrapped "failed to unmarshal response" jsonTypeError) := by
  refine ⟨rfl, rfl, by decide, rfl⟩

/-- C1 (amended). When a response with status below 400 ends the retry loop, its
body is read without error (the bytes of the stream when `Content-Encoding` is not
gzip, the bytes that the gzip reader yields from the stream when it is),
`json.Unmarshal` decodes that body without error into an envelope, and the envelope
has the error code 0, then `get` returns that envelope and no error.  On the body
`{"data":{"test":"value"},"status":{"error_code":0}}` answered with status 200, sent as
it is or as a gzip stream, the result is an envelope with `data.test = "value"` and
the error code 0. -/
theorem get_returns_decoded_envelope :
    (∀ (T : Type) (lib : Lib T) (c : Client) (env : Env) (endpoint : String)
        (opts : Option RequestOptions) (k : Nat) (resp : Response) (body : String)
        (apiResp : APIResponse T),
        Started lib c env endpoint opts →
        EndsLoop env (buildRequest lib c endpoint opts) k resp →
        resp.StatusCode < 400 →
        ((resp.ContentEncoding ≠ "gzip" ∧ resp.Body = { data := body, err := none }) ∨
          (resp.ContentEncoding = "gzip" ∧
            lib.gzipNewReader resp.Body = .ok { data := body, err := none })) →
        lib.unmarshalResponse body = .ok apiResp →
        apiResp.Status.ErrorCode = 0 →
        (get lib c env endpoint opts).result = .ok apiResp) ∧
    (∃ apiResp : APIResponse JsonMap,
        (get testLib testClient
          (scriptEnv [.ok (plainResponse 200
            "\x7b\"data\":\x7b\"test\":\"value\"\x7d,\"status\":\x7b\"error_code\":0\x7d\x7d")])
          "/test" (some { QueryParams := none, Headers := none })).result = .ok apiResp ∧
        apiResp.Data.lookup "test" = some (.str "value") ∧
        apiResp.Status.ErrorCode = 0) ∧
    (gzipNewReaderStored { data := gzipSuccessBody, err := none } =
        .ok { data :=
                "\x7b\"data\":\x7b\"test\":\"value\"\x7d,\"status\":\x7b\"error_code\":0\x7d\x7d"
              err := none } ∧
      gzipSuccessBody ≠
        "\x7b\"data\":\x7b\"test\":\"value\"\x7d,\"status\":\x7b\"error_code\":0\x7d\x7d" ∧
      ∃ apiResp : APIResponse JsonMap,
        (get gzipLib testClient (scriptEnv [.ok (gzipResponse 200 gzipSuccessBody)])
          "/test" (some { QueryParams := none, Headers := none })).result = .ok apiResp ∧
        apiResp.Data.lookup "test" = some (.str "value") ∧
        apiResp.Status.ErrorCode = 0) := by
  refine ⟨?_, ⟨_, rfl, rfl, rfl⟩, rfl, by decide, ⟨_, rfl, rfl, rfl⟩⟩
  intro T lib c env endpoint opts k resp body apiResp hs h hstatus hread hjson hcode
  have hbody := getResponseBody_of_body lib resp body hread
  have hd := doRequest_of_success_status lib c env endpoint opts k resp hs h hstatus
  simp only [get, reqOpts_eq, hd, hbody, hjson, hcode]
  simp

theorem get_returns_decoded_envelope_witness :
    Started gzipLib testClient
      (scriptEnv [.ok (gzipResponse 200
        "\x1f\x8b\x08\x00\x00\x00\x00\x00\x04\x03\x01\x04\x00\xfb\xffnull\x4f\xfc\xcb\x25\x04\x00\x00\x00")])
      "/test" none ∧
    (gzipResponse 200
        "\x1f\x8b\x08\x00\x00\x00\x00\x00\x04\x03\x01\x04\x00\xfb\xffnull\x4f\xfc\xcb\x25\x04\x00\x00\x00"
      ).StatusCode < 400 ∧
    gzipLib.gzipNewReader
        (gzipResponse 200
          "\x1f\x8b\x08\x00\x00\x00\x00\x00\x04\x03\x01\x04\x00\xfb\xffnull\x4f\xfc\xcb\x25\x04\x00\x00\x00"
        ).Body = .ok { data := "null", err := none } ∧
    gzipLib.unmarshalResponse "null" = .ok { Data := [], Status := zeroStatus } ∧
    (get gzipLib testClient
      (scriptEnv [.ok (gzipResponse 200
        "\x1f\x8b\x08\x00\x00\x00\x00\x00\x04\x03\x01\x04\x00\xfb\xffnull\x4f\xfc\xcb\x25\x04\x00\x00\x00")])
      "/test" none).result = .ok { Data := [], Status := zeroStatus } :=
  ⟨⟨rfl, rfl⟩, by decide, rfl, rfl,
    get_returns_decoded_envelope.1 JsonMap gzipLib testClient _ "/test" none 0
      (gzipResponse 200
        "\x1f\x8b\x08\x00\x00\x00\x00\x00\x04\x03\x01\x04\x00\xfb\xffnull\x4f\xfc\xcb\x25\x04\x00\x00\x00")
      "null" { Data := [], Status := zeroStatus }
      ⟨rfl, rfl⟩ (endsLoop_first _ _ _ rfl (by decide)) (by decide)
      (Or.inr ⟨rfl, rfl⟩) rfl rfl⟩

/-- C2 (counterexample). A response with status 400 whose body is a JSON object
carrying a status block with `error_code` 1001 and `error_message` "API key invalid",
but with the member `elapsed` of the status block a string: `json.Unmarshal` rejects
the body, so the `APIError` has the code 0 and the raw body as message, and
`IsAuthError` is false. -/
theorem http_error_ignores_block_with_ill_typed_field :
    parseJSON
        "\x7b\"status\":\x7b\"error_code\":1001,\"error_message\":\"API key invalid\",\"elapsed\":\"fast\"\x7d\x7d" =
      some (.obj [("status", .obj [("error_code", .num 1001),
        ("error_message", .str "API key invalid"), ("elapsed", .str "fast")])]) ∧
    (get testLib testClient
      (scriptEnv [.ok (plainResponse 400
        "\x7b\"status\":\x7b\"error_code\":1001,\"error_message\":\"API key invalid\",\"elapsed\":\"fast\"\x7d\x7d")])
      "/test" none).result =
      .error (.api
        { StatusCode := 400
          ErrorCode := 0
          Message :=
            "\x7b\"status\":\x7b\"error_code\":1001,\"error_message\":\"API key invalid\",\"elapsed\":\"fast\"\x7d\x7d" }) ∧
    ({ StatusCode := 400
       ErrorCode := 0
       Message :=
         "\x7b\"status\":\x7b\"error_code\":1001,\"error_message\":\"API key invalid\",\"elapsed\":\"fast\"\x7d\x7d" } :
      APIError).IsAuthError = false := by
  refine ⟨rfl, rfl, rfl⟩

/-- C2 (amended). When a response with status `s` of at least 400 ends the retry
loop and `json.Unmarshal` decodes its body (the bytes of the stream when
`Content-Encoding` is not gzip, the bytes that the gzip reader yields when it is)
without error into a status block with error code `c`, not zero, and error message
`m`, not null, the call fails with the `APIError` that has `StatusCode = s`,
`ErrorCode = c` and `Message = m`.  On status 400 with the body
`{"data":null,"status":{"error_code":1001,"error_message":"API key invalid"}}`, and on
the error body of the tests sent as a gzip stream, the error has code 1001, that
message, and `IsAuthError` is true. -/
theorem get_http_error_uses_status_block :
    (∀ (T : Type) (lib : Lib T) (c : Client) (env : Env) (endpoint : String)
        (opts : Option RequestOptions) (k : Nat) (resp : Response) (body : String)
        (st : Status) (m : String),
        Started lib c env endpoint opts →
        EndsLoop env (buildRequest lib c endpoint opts) k resp →
        resp.StatusCode ≥ 400 →
        ((resp.ContentEncoding ≠ "gzip" ∧ resp.Body.data = body) ∨
          (resp.ContentEncoding = "gzip" ∧
            ∃ gz, lib.gzipNewReader resp.Body = .ok gz ∧ gz.data = body)) →
        lib.unmarshalStatus body = .ok st →
        st.ErrorCode ≠ 0 →
        st.ErrorMessage = some m →
        (get lib c env endpoint opts).result =
          .error (.api { StatusCode := resp.StatusCode, ErrorCode := st.ErrorCode,
                         Message := m })) ∧
    (∃ e : APIError,
        (get testLib testClient
          (scriptEnv [.ok (plainResponse 400
            "\x7b\"data\":null,\"status\":\x7b\"error_code\":1001,\"error_message\":\"API key invalid\"\x7d\x7d")])
          "/test" (some { QueryParams := none, Headers := none })).result =
          .error (.api e) ∧
        e = { StatusCode := 400, ErrorCode := 1001, Message := "API key invalid" } ∧
        e.IsAuthError = true) ∧
    (∃ e : APIError,
        (get gzipLib testClient (scriptEnv [.ok (gzipResponse 400 gzipErrorBody)])
          "/test" (some { QueryParams := none, Headers := none })).result =
          .error (.api e) ∧
        e = { StatusCode := 400, ErrorCode := 1001, Message := "API key invalid" } ∧
        e.IsAuthError = true) := by
  refine ⟨?_, ⟨_, rfl, rfl, rfl⟩, ⟨_, rfl, rfl, rfl⟩⟩
  intro T lib c env endpoint opts k resp body st m hs h hstatus hread hjson _ hmsg
  have hbody := getResponseBody_fst_of_body lib resp body hread
  rw [get_result_of_http_error lib c env endpoint opts k resp hs h hstatus]
  simp only [httpError, hbody, hjson, hmsg]

theorem get_http_error_uses_status_block_witness :
    Started testLib testClient
      (scriptEnv [.ok (plainResponse 403
        "\x7b\"status\": \x7b\"error_code\": 1006, \"error_message\": \"plan\"\x7d\x7d")])
      "/v1/key/info" none ∧
    (plainResponse 403
        "\x7b\"status\": \x7b\"error_code\": 1006, \"error_message\": \"plan\"\x7d\x7d"
      ).StatusCode ≥ 400 ∧
    testLib.unmarshalStatus
        "\x7b\"status\": \x7b\"error_code\": 1006, \"error_message\": \"plan\"\x7d\x7d" =
      .ok { zeroStatus with ErrorCode := 1006, ErrorMessage := some "plan" } ∧
    (get testLib testClient
      (scriptEnv [.ok (plainResponse 403
        "\x7b\"status\": \x7b\"error_code\": 1006, \"error_message\": \"plan\"\x7d\x7d")])
      "/v1/key/info" none).result =
      .error (.api { StatusCode := 403, ErrorCode := 1006, Message := "plan" }) :=
  ⟨⟨rfl, rfl⟩, by decide, rfl,
    get_http_error_uses_status_block.1 JsonMap testLib testClient _ "/v1/key/info" none 0
      (plainResponse 403
        "\x7b\"status\": \x7b\"error_code\": 1006, \"error_message\": \"plan\"\x7d\x7d")
      "\x7b\"status\": \x7b\"error_code\": 1006, \"error_message\": \"plan\"\x7d\x7d"
      { zeroStatus with ErrorCode := 1006, ErrorMessage := some "plan" } "plan"
      ⟨rfl, rfl⟩ (endsLoop_first _ _ _ rfl (by decide)) (by decide)
      (Or.inl ⟨by decide, rfl⟩) rfl (by decide) rfl⟩

/-- C3. When a response with status `s` of at least 400 ends the retry loop, the call
returns no envelope and fails with an `APIError` whose `StatusCode` is `s`, whatever
the body, the library and the headers are.  Examples: an empty body, a body that is
not JSON, and a body announced as gzip that cannot be decompressed. -/
theorem get_http_error_is_APIError :
    (∀ (T : Type) (lib : Lib T) (c : Client) (env : Env) (endpoint : String)
        (opts : Option RequestOptions) (k : Nat) (resp : Response),
        Started lib c env endpoint opts →
        EndsLoop env (buildRequest lib c endpoint opts) k resp →
        resp.StatusCode ≥ 400 →
        (∀ apiResp, (get lib c env endpoint opts).result ≠ .ok apiResp) ∧
        ∃ e : APIError, (get lib c env endpoint opts).result = .error (.api e) ∧
          e.StatusCode = resp.StatusCode) ∧
    (get testLib testClient (scriptEnv [.ok (plainResponse 500 "")]) "/test" none).result =
      .error (.api { StatusCode := 500, ErrorCode := 0, Message := "" }) ∧
    (get testLib testClient (scriptEnv [.ok (plainResponse 500 "Internal server error")])
        "/test" none).result =
      .error (.api { StatusCode := 500, ErrorCode := 0, Message := "Internal server error" }) ∧
    (get testLib testClient
        (scriptEnv [.ok { StatusCode := 502, ContentEncoding := "gzip", RetryAfter := "",
                          Body := { data := "Bad Gateway", err := none } }])
        "/test" none).result =
      .error (.api { StatusCode := 502, ErrorCode := 0, Message := "" }) := by
  refine ⟨?_, rfl, rfl, rfl⟩
  intro T lib c env endpoint opts k resp hs h hstatus
  have hr := get_result_of_http_error lib c env endpoint opts k resp hs h hstatus
  refine ⟨fun apiResp hok => ?_, httpError lib resp, hr, httpError_statusCode lib resp⟩
  rw [hr] at hok
  cases hok

theorem get_http_error_is_APIError_witness :
    Started testLib testClient (scriptEnv [.ok (plainResponse 503 "<html>busy</html>")])
      "/test" none ∧
    (plainResponse 503 "<html>busy</html>").StatusCode ≥ 400 ∧
    ∃ e : APIError,
      (get testLib testClient (scriptEnv [.ok (plainResponse 503 "<html>busy</html>")])
        "/test" none).result = .error (.api e) ∧ e.StatusCode = 503 :=
  ⟨⟨rfl, rfl⟩, by decide,
    (get_http_error_is_APIError.1 JsonMap testLib testClient _ "/test" none 0
      (plainResponse 503 "<html>busy</html>") ⟨rfl, rfl⟩
      (endsLoop_first _ _ _ rfl (by decide)) (by decide)).2⟩

/-- C4. When a response with status `s` below 400 ends the retry loop, its body is
read without error and decodes to an envelope whose error code `c` is not zero, then
`get` returns no envelope and fails with the `APIError` that has `StatusCode = s`,
`ErrorCode = c` and, as `Message`, the error message of the envelope, or the text
"API error" when that message is null. -/
theorem get_envelope_error_code :
    ∀ (T : Type) (lib : Lib T) (c : Client) (env : Env) (endpoint : String)
      (opts : Option RequestOptions) (k : Nat) (resp : Response) (body : String)
      (apiResp : APIResponse T),
      Started lib c env endpoint opts →
      EndsLoop env (buildRequest lib c endpoint opts) k resp →
      resp.StatusCode < 400 →
      getResponseBody lib resp = (body, none) →
      lib.unmarshalResponse body = .ok apiResp →
      apiResp.Status.ErrorCode ≠ 0 →
      (∀ v, (get lib c env endpoint opts).result ≠ .ok v) ∧
      (get lib c env endpoint opts).result =
        .error (.api { StatusCode := resp.StatusCode,
                       ErrorCode := apiResp.Status.ErrorCode,
                       Message := apiResp.Status.ErrorMessage.getD "API error" }) := by
  intro T lib c env endpoint opts k resp body apiResp hs h hstatus hbody hjson hcode
  have hd := doRequest_of_success_status lib c env endpoint opts k resp hs h hstatus
  have hr : (get lib c env endpoint opts).result =
      .error (.api { StatusCode := resp.StatusCode,
                     ErrorCode := apiResp.Status.ErrorCode,
                     Message := apiResp.Status.ErrorMessage.getD "API error" }) := by
    simp only [get, reqOpts_eq, hd, hbody, hjson]
    rw [if_pos hcode]
    cases apiResp.Status.ErrorMessage <;> rfl
  refine ⟨fun v hok => ?_, hr⟩
  rw [hr] at hok
  cases hok

theorem get_envelope_error_code_witness :
    Started testLib testClient
      (scriptEnv [.ok (plainResponse 200
        "\x7b\"data\": null, \"status\": \x7b\"error_code\": 1008, \"error_message\": null\x7d\x7d")])
      "/test" none ∧
    (plainResponse 200
        "\x7b\"data\": null, \"status\": \x7b\"error_code\": 1008, \"error_message\": null\x7d\x7d"
      ).StatusCode < 400 ∧
    (get testLib testClient
      (scriptEnv [.ok (plainResponse 200
        "\x7b\"data\": null, \"status\": \x7b\"error_code\": 1008, \"error_message\": null\x7d\x7d")])
      "/test" none).result =
      .error (.api { StatusCode := 200, ErrorCode := 1008, Message := "API error" }) :=
  ⟨⟨rfl, rfl⟩, by decide,
    (get_envelope_error_code JsonMap testLib testClient _ "/test" none 0
      (plainResponse 200
        "\x7b\"data\": null, \"status\": \x7b\"error_code\": 1008, \"error_message\": null\x7d\x7d")
      "\x7b\"data\": null, \"status\": \x7b\"error_code\": 1008, \"error_message\": null\x7d\x7d"
      { Data := [], Status := { zeroStatus with ErrorCode := 1008 } }
      ⟨rfl, rfl⟩ (endsLoop_first _ _ _ rfl (by decide)) (by decide) rfl rfl (by decide)).2⟩

/-- C5. When a response with status below 400 ends the retry loop, its body is read
without error and `json.Unmarshal` rejects the body for the envelope type with the
error `e`, then `get` returns no envelope and fails with an error that is not an
`APIError` and that wraps `e`.  Examples: malformed JSON, an empty body, and a
payload of the wrong shape for the payload type. -/
theorem get_decode_failure :
    (∀ (T : Type) (lib : Lib T) (c : Client) (env : Env) (endpoint : String)
        (opts : Option RequestOptions) (k : Nat) (resp : Response) (body : String)
        (e : GoError),
        Started lib c env endpoint opts →
        EndsLoop env (buildRequest lib c endpoint opts) k resp →
        resp.StatusCode < 400 →
        getResponseBody lib resp = (body, none) →
        lib.unmarshalResponse body = .error e →
        (∀ v, (get lib c env endpoint opts).result ≠ .ok v) ∧
        ∃ err : GoError, (get lib c env endpoint opts).result = .error err ∧
          err = .wrapped "failed to unmarshal response" e ∧
          err.asAPIError = none ∧ err.wraps e = true) ∧
    (get testLib testClient (scriptEnv [.ok (plainResponse 200 "\x7b\"data\": ")])
        "/test" none).result =
      .error (.wrapped "failed to unmarshal response" jsonSyntaxError) ∧
    (get testLib testClient (scriptEnv [.ok (plainResponse 200 "")]) "/test" none).result =
      .error (.wrapped "failed to unmarshal response" jsonSyntaxError) ∧
    (get testLib testClient
        (scriptEnv [.ok (plainResponse 200
          "\x7b\"data\": [1, 2], \"status\": \x7b\"error_code\": 0\x7d\x7d")])
        "/test" none).result =
      .error (.wrapped "failed to unmarshal response" jsonTypeError) := by
  refine ⟨?_, rfl, rfl, rfl⟩
  intro T lib c env endpoint opts k resp body e hs h hstatus hbody hjson
  have hd := doRequest_of_success_status lib c env endpoint opts k resp hs h hstatus
  have hr : (get lib c env endpoint opts).result =
      .error (.wrapped "failed to unmarshal response" e) := by
    simp only [get, reqOpts_eq, hd, hbody, hjson]
  refine ⟨fun v hok => ?_, _, hr, rfl, rfl, wrapped_wraps _ e⟩
  rw [hr] at hok
  cases hok

theorem get_decode_failure_witness :
    Started testLib testClient (scriptEnv [.ok (plainResponse 200 "not json")])
      "/test" none ∧
    (plainResponse 200 "not json").StatusCode < 400 ∧
    ∃ err : GoError,
      (get testLib testClient (scriptEnv [.ok (plainResponse 200 "not json")])
        "/test" none).result = .error err ∧
      err = .wrapped "failed to unmarshal response" jsonSyntaxError ∧
      err.asAPIError = none ∧ err.wraps jsonSyntaxError = true :=
  ⟨⟨rfl, rfl⟩, by decide,
    (get_decode_failure.1 JsonMap testLib testClient _ "/test" none 0
      (plainResponse 200 "not json") "not json" jsonSyntaxError ⟨rfl, rfl⟩
      (endsLoop_first _ _ _ rfl (by decide)) (by decide) rfl rfl).2⟩

/-! ## Counting sends and sleeps -/

theorem sendCount_append (xs ys : List Event) :
    sendCount (xs ++ ys) = sendCount xs + sendCount ys := by
  induction xs with
  | nil => simp [sendCount]
  | cons x xs ih =>
    cases x with
    | send req =>
      show sendCount (xs ++ ys) + 1 = sendCount xs + 1 + sendCount ys
      rw [ih]
      omega
    | _ => simp [sendCount, ih]

theorem sleeps_append (xs ys : List Event) : sleeps (xs ++ ys) = sleeps xs ++ sleeps ys := by
  induction xs with
  | nil => simp [sleeps]
  | cons x xs ih => cases x <;> simp [sleeps, ih]

theorem sendCount_retrySteps (req : Request) (i : Nat) (o : Except GoError Response) :
    sendCount (retrySteps req i o) = 1 := by
  cases o <;> rfl

theorem sleeps_retrySteps (req : Request) (i : Nat) (o : Except GoError Response) :
    sleeps (retrySteps req i o) = [retryDelay i o] := by
  cases o <;> rfl

theorem retryTrace_succ (env : Env) (req : Request) (k : Nat) :
    retryTrace env req (k + 1) = retryTrace env req k ++ retrySteps req k (env.Do k req) := by
  simp [retryTrace, List.range_succ, List.flatMap_append]

/-- Each retried attempt is one send. -/
theorem sendCount_retryTrace (env : Env) (req : Request) (k : Nat) :
    sendCount (retryTrace env req k) = k := by
  induction k with
  | zero => rfl
  | succ k ih => rw [retryTrace_succ, sendCount_append, ih, sendCount_retrySteps]

/-- Each retried attempt is one sleep. -/
theorem sleeps_retryTrace (env : Env) (req : Request) (k : Nat) :
    sleeps (retryTrace env req k) = (List.range k).map fun i => retryDelay i (env.Do i req) := by
  induction k with
  | zero => rfl
  | succ k ih =>
    rw [retryTrace_succ, sleeps_append, ih, sleeps_retrySteps, List.range_succ, List.map_append]
    rfl

theorem backoff_eq (i : Nat) : backoff i = ((i : Int) + 1) * Second := by
  simp only [backoff, DefaultRetryDelay]
  ring

/-- The trace of `get` is the trace of `doRequest`, then the deferred close of the
body when `doRequest` returned a response. -/
theorem get_trace {T : Type} (lib : Lib T) (c : Client) (env : Env) (endpoint : String)
    (opts : Option RequestOptions) :
    (get lib c env endpoint opts).trace = (doRequest lib c env endpoint opts).trace ∨
    (get lib c env endpoint opts).trace =
      (doRequest lib c env endpoint opts).trace ++ [.closeBody] := by
  simp only [get, reqOpts_eq]
  rcases hd : doRequest lib c env endpoint opts with ⟨tr, res⟩
  cases res with
  | error e => exact Or.inl rfl
  | panic => exact Or.inl rfl
  | ok resp =>
    right
    simp only
    split
    · rfl
    · split
      · rfl
      · split <;> rfl

theorem get_sendCount {T : Type} (lib : Lib T) (c : Client) (env : Env) (endpoint : String)
    (opts : Option RequestOptions) :
    sendCount (get lib c env endpoint opts).trace =
      sendCount (doRequest lib c env endpoint opts).trace := by
  rcases get_trace lib c env endpoint opts with h | h <;> rw [h]
  rw [sendCount_append]
  rfl

theorem get_sleeps {T : Type} (lib : Lib T) (c : Client) (env : Env) (endpoint : String)
    (opts : Option RequestOptions) :
    sleeps (get lib c env endpoint opts).trace =
      sleeps (doRequest lib c env endpoint opts).trace := by
  rcases get_trace lib c env endpoint opts with h | h <;> rw [h]
  rw [sleeps_append]
  simp [sleeps]

/-- Sends and sleeps of `doRequest` when the response `resp` ends the loop at index
`k`: one send for each retried attempt and one for `resp`, one sleep for each retried
attempt. -/
theorem doRequest_counts_of_endsLoop {T : Type} (lib : Lib T) (c : Client) (env : Env)
    (endpoint : String) (opts : Option RequestOptions) (k : Nat) (resp : Response)
    (hs : Started lib c env endpoint opts)
    (h : EndsLoop env (buildRequest lib c endpoint opts) k resp) :
    sendCount (doRequest lib c env endpoint opts).trace = k + 1 ∧
    sleeps (doRequest lib c env endpoint opts).trace =
      (List.range k).map fun i =>
        retryDelay i (env.Do i (buildRequest lib c endpoint opts)) := by
  rw [doRequest_of_endsLoop lib c env endpoint opts k resp hs h]
  split <;>
    simp [sendCount, sleeps, sendCount_append, sleeps_append, sendCount_retryTrace,
      sleeps_retryTrace]

/-- A transport failure at a loop index below `MaxRetries` is retried. -/
theorem isRetried_failure (i : Nat) (e : GoError) (h : i < MaxRetries) :
    isRetried i (.error e) = true := by
  simp [isRetried, h]

/-- A 429 response at a loop index below `MaxRetries` is retried. -/
theorem isRetried_429 (i : Nat) (resp : Response) (h : i < MaxRetries)
    (hs : resp.StatusCode = StatusTooManyRequests) : isRetried i (.ok resp) = true := by
  simp [isRetried, h, hs]

/-- No answer is retried at the last loop index. -/
theorem isRetried_last (o : Except GoError Response) : isRetried MaxRetries o = false := by
  cases o <;> simp [isRetried]

/-! ## Claims on the retry loop -/

/-- C6. For every `k` in 0, 1, 2, 3: when the transport fails on the first `k` send
attempts and answers attempt `k+1` with a response whose status is not 429, the call
makes exactly `k+1` sends and exactly `k` sleeps, the `i`-th sleep lasting `i` seconds,
and then goes on with that response: its result is the result of the call in which
that response is the first answer.  With two failures followed by status 200 and a
valid envelope, the call succeeds after three sends and the sleeps of 1 s and 2 s. -/
theorem transport_failures_then_response :
    (∀ (T : Type) (lib : Lib T) (c : Client) (env : Env) (endpoint : String)
        (opts : Option RequestOptions) (k : Nat) (resp : Response) (errs : Nat → GoError),
        Started lib c env endpoint opts →
        k ≤ 3 →
        (∀ i, i < k → env.Do i (buildRequest lib c endpoint opts) = .error (errs i)) →
        env.Do k (buildRequest lib c endpoint opts) = .ok resp →
        resp.StatusCode ≠ 429 →
        sendCount (get lib c env endpoint opts).trace = k + 1 ∧
        sleeps (get lib c env endpoint opts).trace =
          (List.range k).map (fun (i : Nat) => ((i : Int) + 1) * Second) ∧
        (get lib c env endpoint opts).result =
          (get lib c { limiterWait := none, Do := fun _ _ => .ok resp } endpoint opts).result) ∧
    (∃ apiResp : APIResponse JsonMap,
        (get testLib testClient
          (scriptEnv [.error (.plain "connection refused"), .error (.plain "connection reset"),
            .ok (plainResponse 200
              "\x7b\"data\":\x7b\"test\":\"value\"\x7d,\"status\":\x7b\"error_code\":0\x7d\x7d")])
          "/test" none).result = .ok apiResp ∧
        sendCount (get testLib testClient
          (scriptEnv [.error (.plain "connection refused"), .error (.plain "connection reset"),
            .ok (plainResponse 200
              "\x7b\"data\":\x7b\"test\":\"value\"\x7d,\"status\":\x7b\"error_code\":0\x7d\x7d")])
          "/test" none).trace = 3 ∧
        sleeps (get testLib testClient
          (scriptEnv [.error (.plain "connection refused"), .error (.plain "connection reset"),
            .ok (plainResponse 200
              "\x7b\"data\":\x7b\"test\":\"value\"\x7d,\"status\":\x7b\"error_code\":0\x7d\x7d")])
          "/test" none).trace = [1 * Second, 2 * Second]) := by
  refine ⟨?_, ⟨_, rfl, rfl, rfl⟩⟩
  intro T lib c env endpoint opts k resp errs hs hk hfail hresp hstatus
  have hne : resp.StatusCode ≠ StatusTooManyRequests := hstatus
  have hends : EndsLoop env (buildRequest lib c endpoint opts) k resp := by
    refine ⟨hk, fun i hi => ?_, hresp, isRetried_of_ne_429 k resp hne⟩
    rw [hfail i hi]
    exact isRetried_failure i _ (Nat.lt_of_lt_of_le hi hk)
  have hcounts := doRequest_counts_of_endsLoop lib c env endpoint opts k resp hs hends
  refine ⟨?_, ?_, ?_⟩
  · rw [get_sendCount, hcounts.1]
  · rw [get_sleeps, hcounts.2]
    refine List.map_congr_left fun i hi => ?_
    rw [hfail i (List.mem_range.mp hi)]
    exact backoff_eq i
  · have hs2 : Started lib c { limiterWait := none, Do := fun _ _ => .ok resp } endpoint opts :=
      ⟨rfl, hs.2⟩
    have hends2 : EndsLoop { limiterWait := none, Do := fun _ _ => .ok resp }
        (buildRequest lib c endpoint opts) 0 resp := endsLoop_first _ _ _ rfl hne
    have h1 := doRequest_of_endsLoop lib c env endpoint opts k resp hs hends
    have h2 := doRequest_of_endsLoop lib c _ endpoint opts 0 resp hs2 hends2
    by_cases hge : resp.StatusCode ≥ 400
    · rw [if_pos hge] at h1 h2
      simp only [get, reqOpts_eq, h1, h2]
    · rw [if_neg hge] at h1 h2
      simp only [get, reqOpts_eq, h1, h2]
      split
      · rfl
      · split
        · rfl
        · split <;> rfl

theorem transport_failures_then_response_witness :
    Started testLib testClient
      (scriptEnv [.error (.plain "timeout"), .ok (plainResponse 404 "not found")])
      "/test" none ∧
    (1 : Nat) ≤ 3 ∧
    (plainResponse 404 "not found").StatusCode ≠ 429 ∧
    sendCount (get testLib testClient
      (scriptEnv [.error (.plain "timeout"), .ok (plainResponse 404 "not found")])
      "/test" none).trace = 1 + 1 ∧
    sleeps (get testLib testClient
      (scriptEnv [.error (.plain "timeout"), .ok (plainResponse 404 "not found")])
      "/test" none).trace = (List.range 1).map (fun (i : Nat) => ((i : Int) + 1) * Second) ∧
    (get testLib testClient
      (scriptEnv [.error (.plain "timeout"), .ok (plainResponse 404 "not found")])
      "/test" none).result =
      (get testLib testClient
        { limiterWait := none, Do := fun _ _ => .ok (plainResponse 404 "not found") }
        "/test" none).result :=
  ⟨⟨rfl, rfl⟩, by decide, by decide,
    transport_failures_then_response.1 JsonMap testLib testClient
      (scriptEnv [.error (.plain "timeout"), .ok (plainResponse 404 "not found")])
      "/test" none 1 (plainResponse 404 "not found") (fun _ => .plain "timeout")
      ⟨rfl, rfl⟩ (by decide)
      (fun i hi => by
        have h0 : i = 0 := by omega
        subst h0
        rfl)
      rfl (by decide)⟩

/-- The run of `doRequest` when the transport fails at each of the four loop indices. -/
theorem doRequest_of_four_failures {T : Type} (lib : Lib T) (c : Client) (env : Env)
    (endpoint : String) (opts : Option RequestOptions) (errs : Nat → GoError)
    (hs : Started lib c env endpoint opts)
    (hfail : ∀ i, i < 4 → env.Do i (buildRequest lib c endpoint opts) = .error (errs i)) :
    doRequest lib c env endpoint opts =
      ⟨[.limiterWait,
          .send (buildRequest lib c endpoint opts), .sleep (1 * Second),
          .send (buildRequest lib c endpoint opts), .sleep (2 * Second),
          .send (buildRequest lib c endpoint opts), .sleep (3 * Second),
          .send (buildRequest lib c endpoint opts)],
        .error (.wrapped "request failed after 4 attempts" (errs 3))⟩ := by
  obtain ⟨hw, hn⟩ := hs
  have hloop : sendLoop env (buildRequest lib c endpoint opts) (List.range (MaxRetries + 1)) none =
      (retryTrace env (buildRequest lib c endpoint opts) 3 ++
          [.send (buildRequest lib c endpoint opts)],
        .error (.wrapped "request failed after 4 attempts" (errs 3))) := by
    have hl : List.range (MaxRetries + 1) = List.range 3 ++ 3 :: [] := by decide
    rw [hl, sendLoop_retried_indices env _ 3 [] (List.range 3) none (fun i hi => by
        have hi3 : i < 3 := List.mem_range.mp hi
        rw [hfail i (by omega)]
        exact isRetried_failure i _ hi3),
      sendLoop_last_failure env _ 3 [] none (errs 3) (hfail 3 (by omega)) (by decide)]
    rfl
  have htrace : retryTrace env (buildRequest lib c endpoint opts) 3 =
      [.send (buildRequest lib c endpoint opts), .sleep (1 * Second),
        .send (buildRequest lib c endpoint opts), .sleep (2 * Second),
        .send (buildRequest lib c endpoint opts), .sleep (3 * Second)] := by
    have hr : List.range 3 = [0, 1, 2] := by decide
    simp only [retryTrace, hr, List.flatMap_cons, List.flatMap_nil, hfail 0 (by omega),
      hfail 1 (by omega), hfail 2 (by omega), retrySteps, backoff_eq]
    simp
  simp only [doRequest, hw, hn, hloop, htrace]
  rfl

/-- C7. When the transport fails on each of four consecutive send attempts, the call
makes exactly four sends and exactly three sleeps, of 1 s, 2 s and 3 s, none after the
last failure and no fifth send; it fails with an error that is not an `APIError`,
whose text names 4 attempts and which wraps the error of the last attempt. -/
theorem transport_failures_exhaust_retries :
    ∀ (T : Type) (lib : Lib T) (c : Client) (env : Env) (endpoint : String)
      (opts : Option RequestOptions) (errs : Nat → GoError),
      Started lib c env endpoint opts →
      (∀ i, i < 4 → env.Do i (buildRequest lib c endpoint opts) = .error (errs i)) →
      (get lib c env endpoint opts).trace =
        [.limiterWait,
          .send (buildRequest lib c endpoint opts), .sleep (1 * Second),
          .send (buildRequest lib c endpoint opts), .sleep (2 * Second),
          .send (buildRequest lib c endpoint opts), .sleep (3 * Second),
          .send (buildRequest lib c endpoint opts)] ∧
      sendCount (get lib c env endpoint opts).trace = 4 ∧
      sleeps (get lib c env endpoint opts).trace = [1 * Second, 2 * Second, 3 * Second] ∧
      ∃ err : GoError, (get lib c env endpoint opts).result = .error err ∧
        err = .wrapped "request failed after 4 attempts" (errs 3) ∧
        err.asAPIError = none ∧ err.wraps (errs 3) = true := by
  intro T lib c env endpoint opts errs hs hfail
  have hd := doRequest_of_four_failures lib c env endpoint opts errs hs hfail
  have hg := get_of_doRequest_error lib c env endpoint opts _ _ hd
  rw [hg]
  exact ⟨rfl, rfl, rfl, _, rfl, rfl, rfl, wrapped_wraps _ _⟩

theorem transport_failures_exhaust_retries_witness :
    Started testLib testClient (scriptEnv [.error (.plain "connection refused")]) "/test" none ∧
    sendCount (get testLib testClient (scriptEnv [.error (.plain "connection refused")])
      "/test" none).trace = 4 ∧
    sleeps (get testLib testClient (scriptEnv [.error (.plain "connection refused")])
      "/test" none).trace = [1 * Second, 2 * Second, 3 * Second] ∧
    ∃ err : GoError,
      (get testLib testClient (scriptEnv [.error (.plain "connection refused")])
        "/test" none).result = .error err ∧
      err = .wrapped "request failed after 4 attempts" (.plain "connection refused") ∧
      err.asAPIError = none ∧ err.wraps (.plain "connection refused") = true :=
  ⟨⟨rfl, rfl⟩,
    (transport_failures_exhaust_retries JsonMap testLib testClient
      (scriptEnv [.error (.plain "connection refused")]) "/test" none
      (fun _ => .plain "connection refused") ⟨rfl, rfl⟩
      (fun i hi => by interval_cases i <;> rfl)).2⟩

/-- C8. When the server answers 429 on four consecutive attempts of one call, the
call makes exactly four sends and then fails with the `APIError` built from the last
response: its `StatusCode` is 429, so that `IsRateLimit` is true, and its `ErrorCode`
is the code of the status block when the body of the last response decodes, hence
that non-zero code when the body yields one, and 0 when the body does not decode.
Examples: four 429 responses with a body that is not JSON give the code 0, four 429
responses whose body carries the code 1008 give the code 1008. -/
theorem rate_limited_four_times :
    (∀ (T : Type) (lib : Lib T) (c : Client) (env : Env) (endpoint : String)
        (opts : Option RequestOptions) (resps : Nat → Response),
        Started lib c env endpoint opts →
        (∀ i, i < 4 → env.Do i (buildRequest lib c endpoint opts) = .ok (resps i) ∧
          (resps i).StatusCode = 429) →
        sendCount (get lib c env endpoint opts).trace = 4 ∧
        ∃ e : APIError, (get lib c env endpoint opts).result = .error (.api e) ∧
          e.StatusCode = 429 ∧ e.IsRateLimit = true ∧
          (∀ st : Status, lib.unmarshalStatus (getResponseBody lib (resps 3)).1 = .ok st →
            e.ErrorCode = st.ErrorCode) ∧
          (∀ err : GoError,
            lib.unmarshalStatus (getResponseBody lib (resps 3)).1 = .error err →
            e.ErrorCode = 0) ∧
          (e.ErrorCode ≠ 0 →
            ∃ st : Status, lib.unmarshalStatus (getResponseBody lib (resps 3)).1 = .ok st ∧
              st.ErrorCode ≠ 0 ∧ e.ErrorCode = st.ErrorCode)) ∧
    (get testLib testClient (scriptEnv [.ok (plainResponse 429 "Too Many Requests")])
        "/test" none).result =
      .error (.api { StatusCode := 429, ErrorCode := 0, Message := "Too Many Requests" }) ∧
    (get testLib testClient
        (scriptEnv [.ok (plainResponse 429
          "\x7b\"status\":\x7b\"error_code\":1008,\"error_message\":\"minute limit\"\x7d\x7d")])
        "/test" none).result =
      .error (.api { StatusCode := 429, ErrorCode := 1008, Message := "minute limit" }) ∧
    sendCount (get testLib testClient
        (scriptEnv [.ok (plainResponse 429
          "\x7b\"status\":\x7b\"error_code\":1008,\"error_message\":\"minute limit\"\x7d\x7d")])
        "/test" none).trace = 4 := by
  refine ⟨?_, rfl, rfl, rfl⟩
  intro T lib c env endpoint opts resps hs h429
  have hends : EndsLoop env (buildRequest lib c endpoint opts) 3 (resps 3) := by
    refine ⟨by decide, fun i hi => ?_, (h429 3 (by omega)).1, isRetried_last _⟩
    rw [(h429 i (by omega)).1]
    exact isRetried_429 i _ hi (h429 i (by omega)).2
  have hstatus : (resps 3).StatusCode ≥ 400 := by
    rw [(h429 3 (by omega)).2]
    decide
  have hcode : (httpError lib (resps 3)).StatusCode = 429 := by
    rw [httpError_statusCode, (h429 3 (by omega)).2]
  refine ⟨?_, httpError lib (resps 3),
    get_result_of_http_error lib c env endpoint opts 3 _ hs hends hstatus, hcode, ?_, ?_, ?_, ?_⟩
  · rw [get_sendCount,
      (doRequest_counts_of_endsLoop lib c env endpoint opts 3 _ hs hends).1]
  · simp [APIError.IsRateLimit, hcode, StatusTooManyRequests]
  · intro st hj
    rw [httpError_errorCode, hj]
  · intro err hj
    rw [httpError_errorCode, hj]
  · intro hne
    rw [httpError_errorCode] at hne ⊢
    cases hj : lib.unmarshalStatus (getResponseBody lib (resps 3)).1 with
    | error err =>
      rw [hj] at hne
      exact absurd rfl hne
    | ok st =>
      rw [hj] at hne
      exact ⟨st, rfl, hne, rfl⟩

theorem rate_limited_four_times_witness :
    Started testLib testClient
      (scriptEnv [.ok (plainResponse 429
        "\x7b\"status\":\x7b\"error_code\":1009,\"error_message\":null\x7d\x7d")])
      "/test" none ∧
    sendCount (get testLib testClient
      (scriptEnv [.ok (plainResponse 429
        "\x7b\"status\":\x7b\"error_code\":1009,\"error_message\":null\x7d\x7d")])
      "/test" none).trace = 4 ∧
    ∃ e : APIError,
      (get testLib testClient
        (scriptEnv [.ok (plainResponse 429
          "\x7b\"status\":\x7b\"error_code\":1009,\"error_message\":null\x7d\x7d")])
        "/test" none).result = .error (.api e) ∧
      e.StatusCode = 429 ∧ e.IsRateLimit = true ∧ e.ErrorCode = 1009 :=
  ⟨⟨rfl, rfl⟩,
    (rate_limited_four_times.1 JsonMap testLib testClient
      (scriptEnv [.ok (plainResponse 429
        "\x7b\"status\":\x7b\"error_code\":1009,\"error_message\":null\x7d\x7d")])
      "/test" none
      (fun _ => plainResponse 429
        "\x7b\"status\":\x7b\"error_code\":1009,\"error_message\":null\x7d\x7d")
      ⟨rfl, rfl⟩ (fun i hi => by interval_cases i <;> exact ⟨rfl, rfl⟩)).1,
    ⟨_, rfl, rfl, rfl, rfl⟩⟩

/-! ## Claims on cancellation -/

/-- C9. When the acquire of the rate limiter fails with the error `err` (the
cancellation of the context of the caller before a token is available), the call
returns at once: its only step is the wait on the limiter, it makes no send and no
sleep, and it fails with an error that is not an `APIError` and that wraps `err`. -/
theorem limiter_failure_sends_nothing :
    ∀ (T : Type) (lib : Lib T) (c : Client) (env : Env) (endpoint : String)
      (opts : Option RequestOptions) (err : GoError),
      env.limiterWait = some err →
      (get lib c env endpoint opts).trace = [.limiterWait] ∧
      sendCount (get lib c env endpoint opts).trace = 0 ∧
      sleeps (get lib c env endpoint opts).trace = [] ∧
      ∃ e : GoError, (get lib c env endpoint opts).result = .error e ∧
        e = .wrapped "rate limiter error" err ∧
        e.asAPIError = none ∧ e.wraps err = true := by
  intro T lib c env endpoint opts err hw
  have hd : doRequest lib c env endpoint opts =
      ⟨[.limiterWait], .error (.wrapped "rate limiter error" err)⟩ := by
    simp only [doRequest, hw]
  rw [get_of_doRequest_error lib c env endpoint opts _ _ hd]
  exact ⟨rfl, rfl, rfl, _, rfl, rfl, rfl, wrapped_wraps _ _⟩

theorem limiter_failure_sends_nothing_witness :
    sendCount (get testLib testClient
      { limiterWait := some .canceled, Do := fun _ _ => .ok (plainResponse 200 "\x7b\x7d") }
      "/test" none).trace = 0 ∧
    ∃ e : GoError,
      (get testLib testClient
        { limiterWait := some .canceled, Do := fun _ _ => .ok (plainResponse 200 "\x7b\x7d") }
        "/test" none).result = .error e ∧
      e = .wrapped "rate limiter error" .canceled ∧
      e.asAPIError = none ∧ e.wraps .canceled = true :=
  ⟨(limiter_failure_sends_nothing JsonMap testLib testClient
      { limiterWait := some .canceled, Do := fun _ _ => .ok (plainResponse 200 "\x7b\x7d") }
      "/test" none .canceled rfl).2.1,
    (limiter_failure_sends_nothing JsonMap testLib testClient
      { limiterWait := some .canceled, Do := fun _ _ => .ok (plainResponse 200 "\x7b\x7d") }
      "/test" none .canceled rfl).2.2.2⟩

/-- C10 (the code at the failing input). The context of the caller is cancelled
before the first send, so each send fails with an error that wraps
`context.Canceled`.  The call does not return after the first send: it sleeps 1 s,
2 s and 3 s, sends four times and only then returns the error. -/
theorem cancelled_send_is_retried :
    (GoError.wrapped "Get \"http://127.0.0.1:8080/test\"" .canceled).isCancellation = true ∧
    (get testLib testClient
      (scriptEnv [.error (.wrapped "Get \"http://127.0.0.1:8080/test\"" .canceled)])
      "/test" none).result =
      .error (.wrapped "request failed after 4 attempts"
        (.wrapped "Get \"http://127.0.0.1:8080/test\"" .canceled)) ∧
    sendCount (get testLib testClient
      (scriptEnv [.error (.wrapped "Get \"http://127.0.0.1:8080/test\"" .canceled)])
      "/test" none).trace = 4 ∧
    sleeps (get testLib testClient
      (scriptEnv [.error (.wrapped "Get \"http://127.0.0.1:8080/test\"" .canceled)])
      "/test" none).trace = [1 * Second, 2 * Second, 3 * Second] := by
  refine ⟨by decide, rfl, rfl, rfl⟩

/-! ## Claims on the classification of errors -/

/-- C11. For every `APIError`, `IsRateLimit` is true exactly when the status code is
429 or the error code is one of 1008, 1009, 1010, 1011; the result does not depend on
the message. -/
theorem isRateLimit_iff :
    (∀ e : APIError, e.IsRateLimit = true ↔
        (e.StatusCode = 429 ∨ e.ErrorCode = 1008 ∨ e.ErrorCode = 1009 ∨
          e.ErrorCode = 1010 ∨ e.ErrorCode = 1011)) ∧
    (∀ (e : APIError) (m : String),
        ({ e with Message := m } : APIError).IsRateLimit = e.IsRateLimit) := by
  refine ⟨fun e => ?_, fun e m => rfl⟩
  simp [APIError.IsRateLimit, StatusTooManyRequests, or_assoc]

/-- C12. For every `APIError`, `IsAuthError` is true exactly when the status code is
401 or the error code is one of 1001, 1002, 1005, 1007; it is false for status 500
with code 0 and for status 429 with code 1008. -/
theorem isAuthError_iff :
    (∀ e : APIError, e.IsAuthError = true ↔
        (e.StatusCode = 401 ∨ e.ErrorCode = 1001 ∨ e.ErrorCode = 1002 ∨
          e.ErrorCode = 1005 ∨ e.ErrorCode = 1007)) ∧
    (∀ m : String,
        ({ StatusCode := 500, ErrorCode := 0, Message := m } : APIError).IsAuthError = false ∧
        ({ StatusCode := 429, ErrorCode := 1008, Message := m } : APIError).IsAuthError = false) := by
  refine ⟨fun e => ?_, fun m => ⟨rfl, rfl⟩⟩
  simp [APIError.IsAuthError, StatusUnauthorized, or_assoc]

/-- C13. For every `APIError`, `IsPaymentRequired` is true exactly when the status
code is 402 or the error code is one of 1003, 1004; it is false for status 500 with
code 0 and for status 401 with code 1001. -/
theorem isPaymentRequired_iff :
    (∀ e : APIError, e.IsPaymentRequired = true ↔
        (e.StatusCode = 402 ∨ e.ErrorCode = 1003 ∨ e.ErrorCode = 1004)) ∧
    (∀ m : String,
        ({ StatusCode := 500, ErrorCode := 0, Message := m } : APIError).IsPaymentRequired
          = false ∧
        ({ StatusCode := 401, ErrorCode := 1001, Message := m } : APIError).IsPaymentRequired
          = false) := by
  refine ⟨fun e => ?_, fun m => ⟨rfl, rfl⟩⟩
  simp [APIError.IsPaymentRequired, StatusPaymentRequired, or_assoc]

/-- C14. For every `APIError`: when the error code is not zero, `Error` is "API error ",
the decimal code, " (HTTP ", the decimal status, "): " and the message; when the error
code is zero, it is "HTTP error ", the decimal status, ": " and the message.  The two
values of the tests render as the tests expect. -/
theorem error_rendering :
    (∀ e : APIError,
        (e.ErrorCode ≠ 0 →
          e.Error = "API error " ++ Itoa e.ErrorCode ++ " (HTTP " ++ Itoa e.StatusCode ++
            "): " ++ e.Message) ∧
        (e.ErrorCode = 0 →
          e.Error = "HTTP error " ++ Itoa e.StatusCode ++ ": " ++ e.Message)) ∧
    ({ StatusCode := 400, ErrorCode := 1001, Message := "API key invalid" } : APIError).Error =
      "API error 1001 (HTTP 400): API key invalid" ∧
    ({ StatusCode := 500, ErrorCode := 0, Message := "Internal server error" } : APIError).Error =
      "HTTP error 500: Internal server error" := by
  refine ⟨fun e => ⟨fun h => ?_, fun h => ?_⟩, by decide, by decide⟩
  · simp only [APIError.Error]
    rw [if_pos h]
  · simp only [APIError.Error]
    rw [if_neg (not_not.mpr h)]

theorem error_rendering_witness :
    ({ StatusCode := 403, ErrorCode := -1006, Message := "plan" } : APIError).ErrorCode ≠ 0 ∧
    ({ StatusCode := 403, ErrorCode := -1006, Message := "plan" } : APIError).Error =
      "API error " ++ Itoa (-1006) ++ " (HTTP " ++ Itoa 403 ++ "): " ++ "plan" ∧
    Itoa (-1006) = "-1006" ∧
    ({ StatusCode := 502, ErrorCode := 0, Message := "Bad Gateway" } : APIError).ErrorCode = 0 ∧
    ({ StatusCode := 502, ErrorCode := 0, Message := "Bad Gateway" } : APIError).Error =
      "HTTP error " ++ Itoa 502 ++ ": " ++ "Bad Gateway" :=
  ⟨by decide,
    (error_rendering.1 { StatusCode := 403, ErrorCode := -1006, Message := "plan" }).1
      (by decide),
    by decide, rfl,
    (error_rendering.1 { StatusCode := 502, ErrorCode := 0, Message := "Bad Gateway" }).2 rfl⟩

/-! ## Claims on the parameter builder -/

/-- C15. For every builder and every key, `AddInt`, `AddFloat`, `AddBool` and
`AddTime` with a nil pointer, `Add` with the empty string, and `AddStringSlice` and
`AddIntSlice` with an empty slice return the builder as it was; none of them can
signal an error, since the result is a builder and nothing else. -/
theorem absent_value_is_noop :
    ∀ (Time : Type) (formatFloat : Float64 → String) (formatTime : Time → String)
      (p : ParamBuilder) (k : String),
      p.AddInt k none = p ∧
      p.AddFloat formatFloat k none = p ∧
      p.AddBool k none = p ∧
      p.AddTime formatTime k none = p ∧
      p.Add k "" = p ∧
      p.AddStringSlice k [] = p ∧
      p.AddIntSlice k [] = p := by
  intro Time formatFloat formatTime p k
  exact ⟨rfl, rfl, rfl, rfl, rfl, rfl, rfl⟩

/-! ## The map of the parameter set -/

theorem lookup_map_add_same (v : Values) (k x : String) :
    (v.map fun p => if p.1 = k then (p.1, p.2 ++ [x]) else p).lookup k =
      (v.lookup k).map (· ++ [x]) := by
  induction v with
  | nil => rfl
  | cons a t ih =>
    obtain ⟨a1, a2⟩ := a
    by_cases h : a1 = k
    · subst h
      simp [List.lookup_cons]
    · have h2 : (k == a1) = false := by simpa using fun h3 => h h3.symm
      simp [List.lookup_cons, h, h2, ih]

theorem lookup_map_add_other (v : Values) (k k2 x : String) (hk : k2 ≠ k) :
    (v.map fun p => if p.1 = k then (p.1, p.2 ++ [x]) else p).lookup k2 = v.lookup k2 := by
  induction v with
  | nil => rfl
  | cons a t ih =>
    obtain ⟨a1, a2⟩ := a
    by_cases h : a1 = k
    · subst h
      have h2 : (k2 == a1) = false := by simpa using hk
      simp [List.lookup_cons, h2, ih]
    · simp [List.lookup_cons, h, ih]

theorem lookup_of_any_false (v : Values) (k : String)
    (h : v.any (fun p => decide (p.1 = k)) = false) : v.lookup k = none := by
  induction v with
  | nil => rfl
  | cons a t ih =>
    obtain ⟨a1, a2⟩ := a
    simp only [List.any_cons, Bool.or_eq_false_iff, decide_eq_false_iff_not] at h
    have h2 : (k == a1) = false := by simpa using fun h3 => h.1 h3.symm
    simp only [List.lookup, h2, ih h.2]

theorem lookup_of_any_true (v : Values) (k : String)
    (h : v.any (fun p => decide (p.1 = k)) = true) : ∃ b, v.lookup k = some b := by
  induction v with
  | nil => simp at h
  | cons a t ih =>
    obtain ⟨a1, a2⟩ := a
    by_cases h1 : a1 = k
    · subst h1
      exact ⟨a2, by simp [List.lookup]⟩
    · have h2 : (k == a1) = false := by simpa using fun h3 => h1 h3.symm
      have h3 : t.any (fun p => decide (p.1 = k)) = true := by
        simpa [List.any_cons, h1] using h
      obtain ⟨b, hb⟩ := ih h3
      exact ⟨b, by simp only [List.lookup, h2, hb]⟩

/-- After `Add(key, value)` the values under `key` are the old ones, then `value`. -/
theorem valuesGetAll_add_same (v : Values) (k x : String) :
    valuesGetAll (valuesAdd v k x) k = valuesGetAll v k ++ [x] := by
  unfold valuesGetAll valuesAdd
  by_cases h : v.any (fun p => decide (p.1 = k)) = true
  · rw [if_pos h, lookup_map_add_same]
    obtain ⟨b, hb⟩ := lookup_of_any_true v k h
    rw [hb]
    rfl
  · rw [if_neg h]
    have h2 := lookup_of_any_false v k (Bool.eq_false_iff.mpr h)
    rw [List.lookup_append, h2]
    simp [List.lookup]

/-- After `Add(key, value)` the values under every other key are as before. -/
theorem valuesGetAll_add_other (v : Values) (k k2 x : String) (hk : k2 ≠ k) :
    valuesGetAll (valuesAdd v k x) k2 = valuesGetAll v k2 := by
  unfold valuesGetAll valuesAdd
  have h2 : (k2 == k) = false := by simpa using hk
  by_cases h : v.any (fun p => decide (p.1 = k)) = true
  · rw [if_pos h, lookup_map_add_other v k k2 x hk]
  · rw [if_neg h, List.lookup_append]
    cases v.lookup k2 <;> simp [List.lookup, h2]

/-- A call of `Add` changes the parameter set. -/
theorem valuesAdd_ne (v : Values) (k x : String) : valuesAdd v k x ≠ v := by
  intro h
  have h1 := valuesGetAll_add_same v k x
  rw [h] at h1
  have h2 := congrArg List.length h1
  simp at h2

/-! ## Claims on the values of the parameter builder -/

/-- C16. For every non-empty list of strings, `AddStringSlice(k, vs)` appends under
`k` exactly one value, the elements of `vs` in order joined by ","; for every non-empty
list of ints, `AddIntSlice(k, vs)` appends exactly one value, the decimal renderings
of the elements in order joined by ",".  The values under the other keys stay as they
were.  The lists `["a","b","c"]` and `[1,2,3]` give "a,b,c" and "1,2,3". -/
theorem slices_are_joined_with_commas :
    (∀ (p : ParamBuilder) (k : String) (vs : List String), vs ≠ [] →
        (p.AddStringSlice k vs).Build = valuesAdd p.Build k (",".intercalate vs) ∧
        valuesGetAll (p.AddStringSlice k vs).Build k =
          valuesGetAll p.Build k ++ [",".intercalate vs] ∧
        ∀ k2, k2 ≠ k →
          valuesGetAll (p.AddStringSlice k vs).Build k2 = valuesGetAll p.Build k2) ∧
    (∀ (p : ParamBuilder) (k : String) (vs : List Int), vs ≠ [] →
        (p.AddIntSlice k vs).Build = valuesAdd p.Build k (",".intercalate (vs.map Itoa)) ∧
        valuesGetAll (p.AddIntSlice k vs).Build k =
          valuesGetAll p.Build k ++ [",".intercalate (vs.map Itoa)] ∧
        ∀ k2, k2 ≠ k →
          valuesGetAll (p.AddIntSlice k vs).Build k2 = valuesGetAll p.Build k2) ∧
    (NewParamBuilder.AddStringSlice "slice" ["a", "b", "c"]).Build = [("slice", ["a,b,c"])] ∧
    (NewParamBuilder.AddIntSlice "intslice" [1, 2, 3]).Build = [("intslice", ["1,2,3"])] := by
  refine ⟨fun p k vs hvs => ?_, fun p k vs hvs => ?_, by decide, by decide⟩
  · have hlen : vs.length > 0 := List.length_pos.mpr hvs
    have hb : (p.AddStringSlice k vs).Build = valuesAdd p.Build k (",".intercalate vs) := by
      simp only [ParamBuilder.AddStringSlice, ParamBuilder.Build]
      rw [if_pos hlen]
    rw [hb]
    exact ⟨rfl, valuesGetAll_add_same _ _ _, fun k2 hk => valuesGetAll_add_other _ _ _ _ hk⟩
  · have hlen : vs.length > 0 := List.length_pos.mpr hvs
    have hb : (p.AddIntSlice k vs).Build =
        valuesAdd p.Build k (",".intercalate (vs.map Itoa)) := by
      simp only [ParamBuilder.AddIntSlice, ParamBuilder.Build]
      rw [if_pos hlen]
    rw [hb]
    exact ⟨rfl, valuesGetAll_add_same _ _ _, fun k2 hk => valuesGetAll_add_other _ _ _ _ hk⟩

theorem slices_are_joined_with_commas_witness :
    (["BTC", "ETH"] : List String) ≠ [] ∧
    valuesGetAll ((NewParamBuilder.Add "symbol" "XRP").AddStringSlice "symbol"
      ["BTC", "ETH"]).Build "symbol" = ["XRP", "BTC,ETH"] ∧
    ([-1, 0, 42] : List Int) ≠ [] ∧
    valuesGetAll ((NewParamBuilder.Add "id" "7").AddIntSlice "id" [-1, 0, 42]).Build "id" =
      ["7", "-1,0,42"] :=
  ⟨by decide,
    (slices_are_joined_with_commas.1 (NewParamBuilder.Add "symbol" "XRP") "symbol"
      ["BTC", "ETH"] (by decide)).2.1,
    by decide,
    (slices_are_joined_with_commas.2.1 (NewParamBuilder.Add "id" "7") "id"
      [-1, 0, 42] (by decide)).2.1⟩

/-- C17. A present value is never taken for an absent one because it is a zero
value: for every int `i`, `AddInt(k, Int(i))` appends the decimal rendering of `i`
under `k`, and for every bool `b`, `AddBool(k, Bool(b))` appends "true" or "false"
accordingly; in both cases the parameter set changes.  `Int(123)` gives "123",
`Int(0)` gives "0", a negative number keeps its sign, `Bool(false)` gives "false". -/
theorem present_zero_values_are_added :
    (∀ (p : ParamBuilder) (k : String) (i : Int),
        (p.AddInt k (IntPtr i)).Build = valuesAdd p.Build k (Itoa i) ∧
        valuesGetAll (p.AddInt k (IntPtr i)).Build k = valuesGetAll p.Build k ++ [Itoa i] ∧
        (p.AddInt k (IntPtr i)).Build ≠ p.Build) ∧
    (∀ (p : ParamBuilder) (k : String) (b : Bool),
        valuesGetAll (p.AddBool k (BoolPtr b)).Build k =
          valuesGetAll p.Build k ++ [if b then "true" else "false"] ∧
        (p.AddBool k (BoolPtr b)).Build ≠ p.Build) ∧
    Itoa 123 = "123" ∧ Itoa 0 = "0" ∧ Itoa (-45) = "-45" ∧
    (NewParamBuilder.AddInt "int" (IntPtr 123)).Build = [("int", ["123"])] ∧
    (NewParamBuilder.AddInt "start" (IntPtr 0)).Build = [("start", ["0"])] ∧
    (NewParamBuilder.AddBool "bool" (BoolPtr true)).Build = [("bool", ["true"])] ∧
    (NewParamBuilder.AddBool "bool" (BoolPtr false)).Build = [("bool", ["false"])] := by
  refine ⟨fun p k i => ⟨rfl, valuesGetAll_add_same _ _ _, valuesAdd_ne _ _ _⟩,
    fun p k b => ⟨valuesGetAll_add_same _ _ _, valuesAdd_ne _ _ _⟩,
    by decide, by decide, by decide, by decide, by decide, by decide, by decide⟩

/-! ## Claims on the endpoint wrappers -/

/-- C18 (the code at the failing input). `GetCryptocurrencyMap` with options whose
`Sort` is nil panics at `*opts.Sort` while it builds its parameters, whatever the
other fields are; on the options of the usage guide no parameter set is built and no
request is made. -/
theorem cryptocurrencyMap_nil_sort_panics :
    (∀ (ls : Option String) (start limit : Option Int) (symbol aux : List String),
        cryptocurrencyMapParams (some
          { ListingStatus := ls, Start := start, Limit := limit, «Sort» := none,
            Symbol := symbol, Aux := aux }) = .panic) ∧
    (GetCryptocurrencyMap testLib testClient
        (scriptEnv [.ok (plainResponse 200
          "\x7b\"data\":[],\"status\":\x7b\"error_code\":0\x7d\x7d")])
        (some { ListingStatus := some StatusActive, Start := IntPtr 1, Limit := IntPtr 20,
                «Sort» := none, Symbol := [], Aux := [] })).result = .panic ∧
    (GetCryptocurrencyMap testLib testClient
        (scriptEnv [.ok (plainResponse 200
          "\x7b\"data\":[],\"status\":\x7b\"error_code\":0\x7d\x7d")])
        (some { ListingStatus := some StatusActive, Start := IntPtr 1, Limit := IntPtr 20,
                «Sort» := none, Symbol := [], Aux := [] })).trace = [] := by
  refine ⟨fun ls start limit symbol aux => ?_, rfl, rfl⟩
  cases ls <;> rfl

/-- C19 (the code at the failing input). `GetCryptocurrencyListingsLatest` with
options whose `Tag` is nil panics at `*opts.Tag` while it builds its parameters; on
the options of the quick start no parameter set is built and no request is made. -/
theorem cryptocurrencyListings_nil_tag_panics :
    (∀ (formatFloat : Float64 → String) (o : CryptocurrencyListingsOptions),
        cryptocurrencyListingsParams formatFloat (some { o with Tag := none }) = .panic) ∧
    (∀ formatFloat : Float64 → String,
        (GetCryptocurrencyListingsLatest testLib formatFloat testClient
          (scriptEnv [.ok (plainResponse 200
            "\x7b\"data\":[],\"status\":\x7b\"error_code\":0\x7d\x7d")])
          (some { Start := IntPtr 1, Limit := IntPtr 10, PriceMin := none, PriceMax := none,
                  MarketCapMin := none, MarketCapMax := none, Volume24hMin := none,
                  Volume24hMax := none, CirculatingSupplyMin := none,
                  CirculatingSupplyMax := none, PercentChange24hMin := none,
                  PercentChange24hMax := none, Convert := ["USD"], ConvertID := [],
                  «Sort» := none, SortDir := none, CryptocurrencyType := none, Tag := none,
                  Aux := [] })).result = .panic ∧
        (GetCryptocurrencyListingsLatest testLib formatFloat testClient
          (scriptEnv [.ok (plainResponse 200
            "\x7b\"data\":[],\"status\":\x7b\"error_code\":0\x7d\x7d")])
          (some { Start := IntPtr 1, Limit := IntPtr 10, PriceMin := none, PriceMax := none,
                  MarketCapMin := none, MarketCapMax := none, Volume24hMin := none,
                  Volume24hMax := none, CirculatingSupplyMin := none,
                  CirculatingSupplyMax := none, PercentChange24hMin := none,
                  PercentChange24hMax := none, Convert := ["USD"], ConvertID := [],
                  «Sort» := none, SortDir := none, CryptocurrencyType := none, Tag := none,
                  Aux := [] })).trace = []) := by
  refine ⟨fun formatFloat o => ?_, fun formatFloat => ⟨rfl, rfl⟩⟩
  simp only [cryptocurrencyListingsParams]

/-! ## Construction of the client -/

theorem getLast?_filterMap_snoc {α β : Type} (f : α → Option β) (l : List α) (a : α) :
    ((l ++ [a]).filterMap f).getLast? = (f a).or (l.filterMap f).getLast? := by
  rw [List.filterMap_append, List.getLast?_append]
  cases h : f a <;> simp [List.filterMap_cons, h]

theorem lastAPIKey_snoc (l : List OptionSpec) (a : OptionSpec) :
    lastAPIKey (l ++ [a]) =
      match a with
      | .withAPIKey apiKey => some apiKey
      | _ => lastAPIKey l := by
  unfold lastAPIKey
  rw [getLast?_filterMap_snoc]
  cases a <;> rfl

theorem lastBaseURL_snoc (l : List OptionSpec) (a : OptionSpec) :
    lastBaseURL (l ++ [a]) =
      match a with
      | .withBaseURL baseURL => some baseURL
      | _ => lastBaseURL l := by
  unfold lastBaseURL
  rw [getLast?_filterMap_snoc]
  cases a <;> rfl

theorem lastRateLimit_snoc (l : List OptionSpec) (a : OptionSpec) :
    lastRateLimit (l ++ [a]) =
      match a with
      | .withRateLimit limit => some limit
      | _ => lastRateLimit l := by
  unfold lastRateLimit
  rw [getLast?_filterMap_snoc]
  cases a <;> rfl

theorem lastSandbox_snoc (l : List OptionSpec) (a : OptionSpec) :
    lastSandbox (l ++ [a]) =
      match a with
      | .withSandbox sandbox => some sandbox
      | _ => lastSandbox l := by
  unfold lastSandbox
  rw [getLast?_filterMap_snoc]
  cases a <;> rfl

theorem lastUserAgent_snoc (l : List OptionSpec) (a : OptionSpec) :
    lastUserAgent (l ++ [a]) =
      match a with
      | .withUserAgent userAgent => some userAgent
      | _ => lastUserAgent l := by
  unfold lastUserAgent
  rw [getLast?_filterMap_snoc]
  cases a <;> rfl

/-- The configuration after one more option. -/
theorem foldl_options_snoc (l : List OptionSpec) (a : OptionSpec) :
    ((l ++ [a]).map OptionSpec.toOption).foldl (fun cfg opt => opt cfg) defaultConfig =
      a.toOption ((l.map OptionSpec.toOption).foldl (fun cfg opt => opt cfg) defaultConfig) := by
  simp only [List.map_append, List.map_cons, List.map_nil, List.foldl_append, List.foldl_cons,
    List.foldl_nil]

/-- The configuration after the options of a list, in terms of the last option of
each kind.  The base URL is described for a list without `WithSandbox`. -/
theorem config_after_options (specs : List OptionSpec) :
    ((specs.map OptionSpec.toOption).foldl (fun cfg opt => opt cfg) defaultConfig).APIKey =
      (lastAPIKey specs).getD "" ∧
    ((specs.map OptionSpec.toOption).foldl (fun cfg opt => opt cfg) defaultConfig).UserAgent =
      (lastUserAgent specs).getD "go-coinmarketcap/1.0" ∧
    ((specs.map OptionSpec.toOption).foldl (fun cfg opt => opt cfg) defaultConfig).RateLimit =
      (lastRateLimit specs).getD (1 / 2) ∧
    ((specs.map OptionSpec.toOption).foldl (fun cfg opt => opt cfg) defaultConfig).Sandbox =
      (lastSandbox specs).getD false ∧
    (lastSandbox specs = none →
      ((specs.map OptionSpec.toOption).foldl (fun cfg opt => opt cfg) defaultConfig).BaseURL =
        (lastBaseURL specs).getD DefaultBaseURL) := by
  induction specs using List.reverseRecOn with
  | nil =>
    refine ⟨rfl, rfl, ?_, rfl, fun _ => rfl⟩
    simp only [List.map_nil, List.foldl_nil, defaultConfig, DefaultRateLimit, lastRateLimit,
      List.filterMap_nil, List.getLast?_nil, Option.getD_none]
    norm_num
  | append_singleton l a ih =>
    obtain ⟨h1, h2, h3, h4, h5⟩ := ih
    rw [foldl_options_snoc, lastAPIKey_snoc, lastUserAgent_snoc, lastRateLimit_snoc,
      lastSandbox_snoc, lastBaseURL_snoc]
    cases a with
    | withAPIKey apiKey => exact ⟨rfl, h2, h3, h4, h5⟩
    | withBaseURL baseURL => exact ⟨h1, h2, h3, h4, fun _ => rfl⟩
    | withHTTPClient client => exact ⟨h1, h2, h3, h4, h5⟩
    | withRateLimit limit => exact ⟨h1, h2, rfl, h4, h5⟩
    | withUserAgent userAgent => exact ⟨h1, rfl, h3, h4, h5⟩
    | withSandbox sandbox =>
      cases sandbox
      · exact ⟨h1, h2, h3, rfl, fun h => Option.noConfusion h⟩
      · exact ⟨h1, h2, h3, rfl, fun h => Option.noConfusion h⟩

/-- C20. `NewClient` applies its options in order and the last one wins: for every
option list, the API key, the user agent and the rate limit of the client are the
argument of the last `WithAPIKey`, `WithUserAgent` and `WithRateLimit` of the list, and
the defaults (the empty key, "go-coinmarketcap/1.0", 30/60 = 1/2 requests per second)
when the list has no option of that kind; when the list has no `WithSandbox`, the base
URL is the argument of the last `WithBaseURL`, and the production URL when there is
none. -/
theorem newClient_last_option_wins :
    ∀ specs : List OptionSpec,
      (NewClient (specs.map OptionSpec.toOption)).apiKey = (lastAPIKey specs).getD "" ∧
      (NewClient (specs.map OptionSpec.toOption)).userAgent =
        (lastUserAgent specs).getD "go-coinmarketcap/1.0" ∧
      (NewClient (specs.map OptionSpec.toOption)).rateLimiter.limit =
        (lastRateLimit specs).getD ((30 : ℚ) / 60) ∧
      ((30 : ℚ) / 60 = 1 / 2) ∧
      (lastSandbox specs = none →
        (NewClient (specs.map OptionSpec.toOption)).baseURL =
          (lastBaseURL specs).getD "https://pro-api.coinmarketcap.com") := by
  intro specs
  obtain ⟨h1, h2, h3, h4, h5⟩ := config_after_options specs
  have hq : (30 : ℚ) / 60 = 1 / 2 := by norm_num
  refine ⟨?_, ?_, ?_, hq, fun hs => ?_⟩
  · simp only [NewClient]
    split <;> exact h1
  · simp only [NewClient]
    split <;> exact h2
  · rw [hq]
    simp only [NewClient]
    split <;> exact h3
  · have hsb : ((specs.map OptionSpec.toOption).foldl (fun cfg opt => opt cfg)
        defaultConfig).Sandbox = false := by
      rw [h4, hs]
      rfl
    simp only [NewClient, hsb]
    exact h5 hs

theorem newClient_last_option_wins_witness :
    lastSandbox [.withAPIKey "a", .withBaseURL "http://one", .withUserAgent "MyApp/2.0",
      .withAPIKey "test-key", .withBaseURL "http://two", .withRateLimit 10] = none ∧
    (NewClient [WithAPIKey "a", WithBaseURL "http://one", WithUserAgent "MyApp/2.0",
      WithAPIKey "test-key", WithBaseURL "http://two", WithRateLimit 10]).baseURL =
      "http://two" ∧
    (NewClient [WithAPIKey "a", WithBaseURL "http://one", WithUserAgent "MyApp/2.0",
      WithAPIKey "test-key", WithBaseURL "http://two", WithRateLimit 10]).apiKey =
      "test-key" :=
  ⟨rfl,
    (newClient_last_option_wins [.withAPIKey "a", .withBaseURL "http://one",
      .withUserAgent "MyApp/2.0", .withAPIKey "test-key", .withBaseURL "http://two",
      .withRateLimit 10]).2.2.2.2 rfl,
    (newClient_last_option_wins [.withAPIKey "a", .withBaseURL "http://one",
      .withUserAgent "MyApp/2.0", .withAPIKey "test-key", .withBaseURL "http://two",
      .withRateLimit 10]).1⟩

/-- The flag `Sandbox` of the configuration decides the base URL of the client when
it is set. -/
theorem newClient_baseURL_of_sandbox (opts : List ClientOption)
    (h : (opts.foldl (fun cfg opt => opt cfg) defaultConfig).Sandbox = true) :
    (NewClient opts).baseURL = SandboxBaseURL := by
  simp only [NewClient, h]
  rfl

/-- C21. For every option list whose last `WithSandbox` has the argument true, the
base URL of the client is the sandbox URL, whatever `WithBaseURL` options the list
holds, before or after that option. -/
theorem sandbox_forces_base_url :
    ∀ specs : List OptionSpec, lastSandbox specs = some true →
      (NewClient (specs.map OptionSpec.toOption)).baseURL =
        "https://sandbox-api.coinmarketcap.com" := by
  intro specs hs
  obtain ⟨_, _, _, h4, _⟩ := config_after_options specs
  rw [hs] at h4
  exact newClient_baseURL_of_sandbox _ h4

theorem sandbox_forces_base_url_witness :
    lastSandbox [.withBaseURL "http://before", .withSandbox false, .withSandbox true,
      .withAPIKey "test-key", .withBaseURL "http://after"] = some true ∧
    (NewClient [WithBaseURL "http://before", WithSandbox false, WithSandbox true,
      WithAPIKey "test-key", WithBaseURL "http://after"]).baseURL =
      "https://sandbox-api.coinmarketcap.com" :=
  ⟨rfl,
    sandbox_forces_base_url [.withBaseURL "http://before", .withSandbox false,
      .withSandbox true, .withAPIKey "test-key", .withBaseURL "http://after"] rfl⟩

/-- C30 (the code at the failing input). After `WithSandbox(true)` the option
`WithSandbox(false)` clears the flag but leaves the base URL that the first option
wrote: the client of `[WithSandbox(true), WithSandbox(false)]` has the sandbox URL,
not the production URL. -/
theorem sandbox_false_keeps_sandbox_url :
    lastBaseURL [.withSandbox true, .withSandbox false] = none ∧
    lastSandbox [.withSandbox true, .withSandbox false] = some false ∧
    (NewClient [WithSandbox true, WithSandbox false]).baseURL =
      "https://sandbox-api.coinmarketcap.com" ∧
    (NewClient [WithSandbox true, WithSandbox false]).baseURL ≠
      "https://pro-api.coinmarketcap.com" := by
  refine ⟨rfl, rfl, rfl, by decide⟩

/-! ## Claims on the attempt counter -/

/-- The loop makes at most one send for each loop index. -/
theorem sendCount_sendLoop_le (env : Env) (req : Request) :
    ∀ (idxs : List Nat) (r : Option Response),
      sendCount (sendLoop env req idxs r).1 ≤ idxs.length := by
  intro idxs
  induction idxs with
  | nil =>
    intro r
    simp [sendLoop, sendCount]
  | cons a rest ih =>
    intro r
    simp only [sendLoop]
    split
    · split
      · have h := ih none
        simp only [sendCount, List.length_cons]
        omega
      · simp [sendCount]
    · split
      · rename_i resp _ _
        have h := ih (some resp)
        simp only [sendCount, List.length_cons]
        omega
      · simp [sendCount]

/-- One call of `doRequest` makes at most four sends. -/
theorem doRequest_sendCount_le {T : Type} (lib : Lib T) (c : Client) (env : Env)
    (endpoint : String) (opts : Option RequestOptions) :
    sendCount (doRequest lib c env endpoint opts).trace ≤ 4 := by
  have hloop := sendCount_sendLoop_le env (buildRequest lib c endpoint opts)
    (List.range (MaxRetries + 1)) none
  have hlen : (List.range (MaxRetries + 1)).length = 4 := by decide
  rw [hlen] at hloop
  simp only [doRequest]
  split
  · simp [sendCount]
  · split
    · simp [sendCount]
    · split
      · rename_i h
        rw [h] at hloop
        simpa [sendCount] using hloop
      · rename_i h
        rw [h] at hloop
        simpa [sendCount] using hloop
      · rename_i h
        rw [h] at hloop
        split
        · simpa [sendCount, sendCount_append] using hloop
        · simpa [sendCount] using hloop

/-- C24. Transport failures and 429 responses use one attempt counter: whatever the
transport answers, one call makes at most four sends.  After two transport failures
and two 429 responses the call ends at the fourth send with the `APIError` of the
last response. -/
theorem one_shared_attempt_counter :
    (∀ (T : Type) (lib : Lib T) (c : Client) (env : Env) (endpoint : String)
        (opts : Option RequestOptions),
        sendCount (get lib c env endpoint opts).trace ≤ 4) ∧
    sendCount (get testLib testClient
      (scriptEnv [.error (.plain "connection refused"), .error (.plain "connection refused"),
        .ok (plainResponse 429 "slow down"), .ok (plainResponse 429 "slow down"),
        .ok (plainResponse 200 "\x7b\"data\":null,\"status\":\x7b\"error_code\":0\x7d\x7d")])
      "/test" none).trace = 4 ∧
    (get testLib testClient
      (scriptEnv [.error (.plain "connection refused"), .error (.plain "connection refused"),
        .ok (plainResponse 429 "slow down"), .ok (plainResponse 429 "slow down"),
        .ok (plainResponse 200 "\x7b\"data\":null,\"status\":\x7b\"error_code\":0\x7d\x7d")])
      "/test" none).result =
      .error (.api { StatusCode := 429, ErrorCode := 0, Message := "slow down" }) := by
  refine ⟨fun T lib c env endpoint opts => ?_, rfl, rfl⟩
  rw [get_sendCount]
  exact doRequest_sendCount_le lib c env endpoint opts

/-- C25. Only a transport failure or a 429 response is retried: when the first
response whose status is not 429 comes at loop index `k`, the call makes no send after
it, at most `k+1` sends in all and exactly `k+1` when `k` is a loop index, whatever
happens to that response afterwards.  A response with status 200 whose envelope
carries the code 1008 gives an `APIError` with `IsRateLimit` true after exactly one
send. -/
theorem no_retry_after_other_response :
    (∀ (T : Type) (lib : Lib T) (c : Client) (env : Env) (endpoint : String)
        (opts : Option RequestOptions) (k : Nat) (resp : Response),
        Started lib c env endpoint opts →
        (∀ i, i < k → ∀ r, env.Do i (buildRequest lib c endpoint opts) = .ok r →
          r.StatusCode = 429) →
        env.Do k (buildRequest lib c endpoint opts) = .ok resp →
        resp.StatusCode ≠ 429 →
        sendCount (get lib c env endpoint opts).trace ≤ k + 1 ∧
        (k ≤ 3 → sendCount (get lib c env endpoint opts).trace = k + 1)) ∧
    (∀ (T : Type) (lib : Lib T) (c : Client) (env : Env) (endpoint : String)
        (opts : Option RequestOptions) (resp : Response) (body : String)
        (apiResp : APIResponse T),
        Started lib c env endpoint opts →
        env.Do 0 (buildRequest lib c endpoint opts) = .ok resp →
        resp.StatusCode = 200 →
        getResponseBody lib resp = (body, none) →
        lib.unmarshalResponse body = .ok apiResp →
        apiResp.Status.ErrorCode = 1008 →
        sendCount (get lib c env endpoint opts).trace = 1 ∧
        ∃ e : APIError, (get lib c env endpoint opts).result = .error (.api e) ∧
          e.IsRateLimit = true) := by
  refine ⟨?_, ?_⟩
  · intro T lib c env endpoint opts k resp hs hbefore hresp hstatus
    have hle4 : sendCount (get lib c env endpoint opts).trace ≤ 4 := by
      rw [get_sendCount]
      exact doRequest_sendCount_le lib c env endpoint opts
    have hexact : k ≤ 3 → sendCount (get lib c env endpoint opts).trace = k + 1 := by
      intro hk
      have hends : EndsLoop env (buildRequest lib c endpoint opts) k resp := by
        refine ⟨hk, fun i hi => ?_, hresp, isRetried_of_ne_429 k resp hstatus⟩
        have hi3 : i < MaxRetries := Nat.lt_of_lt_of_le hi hk
        cases hd : env.Do i (buildRequest lib c endpoint opts) with
        | error e => exact isRetried_failure i e hi3
        | ok r => exact isRetried_429 i r hi3 (hbefore i hi r hd)
      rw [get_sendCount, (doRequest_counts_of_endsLoop lib c env endpoint opts k resp hs hends).1]
    refine ⟨?_, hexact⟩
    by_cases hk : k ≤ 3
    · rw [hexact hk]
    · omega
  · intro T lib c env endpoint opts resp body apiResp hs hresp hstatus hbody hjson hcode
    have hne : resp.StatusCode ≠ StatusTooManyRequests := by
      rw [hstatus]
      decide
    have hends := endsLoop_first env (buildRequest lib c endpoint opts) resp hresp hne
    have hlt : resp.StatusCode < 400 := by
      rw [hstatus]
      decide
    have hd := doRequest_of_success_status lib c env endpoint opts 0 resp hs hends hlt
    refine ⟨?_, ?_⟩
    · rw [get_sendCount, (doRequest_counts_of_endsLoop lib c env endpoint opts 0 resp hs hends).1]
    · have hnz : apiResp.Status.ErrorCode ≠ 0 := by
        rw [hcode]
        decide
      refine ⟨{ StatusCode := resp.StatusCode, ErrorCode := apiResp.Status.ErrorCode,
                Message := apiResp.Status.ErrorMessage.getD "API error" }, ?_, ?_⟩
      · simp only [get, reqOpts_eq, hd, hbody, hjson]
        rw [if_pos hnz]
        cases apiResp.Status.ErrorMessage <;> rfl
      · simp [APIError.IsRateLimit, hcode]

theorem no_retry_after_other_response_witness :
    Started testLib testClient
      (scriptEnv [.ok (plainResponse 429 "slow down"), .error (.plain "reset"),
        .ok (plainResponse 200 "not json"), .ok (plainResponse 200 "null")]) "/test" none ∧
    (plainResponse 200 "not json").StatusCode ≠ 429 ∧
    sendCount (get testLib testClient
      (scriptEnv [.ok (plainResponse 429 "slow down"), .error (.plain "reset"),
        .ok (plainResponse 200 "not json"), .ok (plainResponse 200 "null")])
      "/test" none).trace = 2 + 1 ∧
    sendCount (get testLib testClient
      (scriptEnv [.ok (plainResponse 200
        "\x7b\"data\":null,\"status\":\x7b\"error_code\":1008,\"error_message\":\"minute limit\"\x7d\x7d")])
      "/test" none).trace = 1 ∧
    ∃ e : APIError,
      (get testLib testClient
        (scriptEnv [.ok (plainResponse 200
          "\x7b\"data\":null,\"status\":\x7b\"error_code\":1008,\"error_message\":\"minute limit\"\x7d\x7d")])
        "/test" none).result = .error (.api e) ∧ e.IsRateLimit = true :=
  ⟨⟨rfl, rfl⟩, by decide,
    (no_retry_after_other_response.1 JsonMap testLib testClient
      (scriptEnv [.ok (plainResponse 429 "slow down"), .error (.plain "reset"),
        .ok (plainResponse 200 "not json"), .ok (plainResponse 200 "null")])
      "/test" none 2 (plainResponse 200 "not json") ⟨rfl, rfl⟩
      (fun i hi r hd => by
        interval_cases i
        · cases hd
          rfl
        · cases hd)
      rfl (by decide)).2 (by decide),
    no_retry_after_other_response.2 JsonMap testLib testClient
      (scriptEnv [.ok (plainResponse 200
        "\x7b\"data\":null,\"status\":\x7b\"error_code\":1008,\"error_message\":\"minute limit\"\x7d\x7d")])
      "/test" none
      (plainResponse 200
        "\x7b\"data\":null,\"status\":\x7b\"error_code\":1008,\"error_message\":\"minute limit\"\x7d\x7d")
      "\x7b\"data\":null,\"status\":\x7b\"error_code\":1008,\"error_message\":\"minute limit\"\x7d\x7d"
      { Data := [],
        Status := { zeroStatus with ErrorCode := 1008, ErrorMessage := some "minute limit" } }
      ⟨rfl, rfl⟩ rfl rfl rfl rfl rfl⟩

/-! ## Claims on what the pipeline returns -/

/-- A response returned by `doRequest` has a status below 400. -/
theorem doRequest_ok_status {T : Type} (lib : Lib T) (c : Client) (env : Env)
    (endpoint : String) (opts : Option RequestOptions) (resp : Response)
    (h : (doRequest lib c env endpoint opts).result = .ok resp) : resp.StatusCode < 400 := by
  simp only [doRequest] at h
  split at h
  · cases h
  · split at h
    · cases h
    · split at h
      · cases h
      · cases h
      · split at h
        · cases h
        · rename_i hge
          injection h with h
          rw [← h]
          exact not_le.mp hge

/-- An envelope returned by `get` is the one decoded from the body of the response
that `doRequest` returned, and its error code is 0. -/
theorem get_ok_inv {T : Type} (lib : Lib T) (c : Client) (env : Env) (endpoint : String)
    (opts : Option RequestOptions) (apiResp : APIResponse T)
    (h : (get lib c env endpoint opts).result = .ok apiResp) :
    ∃ resp body, (doRequest lib c env endpoint opts).result = .ok resp ∧
      getResponseBody lib resp = (body, none) ∧
      lib.unmarshalResponse body = .ok apiResp ∧
      apiResp.Status.ErrorCode = 0 := by
  simp only [get, reqOpts_eq] at h
  rcases hd : doRequest lib c env endpoint opts with ⟨tr, res⟩
  rw [hd] at h
  cases res with
  | error e => cases h
  | panic => cases h
  | ok resp =>
    simp only at h
    rcases hb : getResponseBody lib resp with ⟨body, berr⟩
    rw [hb] at h
    cases berr with
    | some e => cases h
    | none =>
      simp only at h
      cases hj : lib.unmarshalResponse body with
      | error e =>
        rw [hj] at h
        cases h
      | ok decoded =>
        rw [hj] at h
        simp only at h
        by_cases hz : decoded.Status.ErrorCode = 0
        · rw [if_neg (not_not.mpr hz)] at h
          injection h with h
          subst h
          exact ⟨resp, body, rfl, hb, hj, hz⟩
        · rw [if_pos hz] at h
          cases h

/-- C23 (counterexample). A response with status 200 whose status block has the code
0 and a non-null error message: `get` returns the envelope without error, and the
envelope holds that message.  So it is not true that every envelope returned by `get`
has an absent error message. -/
theorem get_returns_populated_error_message :
    (∃ apiResp : APIResponse JsonMap,
      (get testLib testClient
        (scriptEnv [.ok (plainResponse 200
          "\x7b\"data\":\x7b\x7d,\"status\":\x7b\"error_code\":0,\"error_message\":\"deprecated endpoint\"\x7d\x7d")])
        "/test" none).result = .ok apiResp ∧
      apiResp.Status.ErrorCode = 0 ∧
      apiResp.Status.ErrorMessage = some "deprecated endpoint") ∧
    ¬ (∀ (env : Env) (apiResp : APIResponse JsonMap),
        (get testLib testClient env "/test" none).result = .ok apiResp →
        apiResp.Status.ErrorMessage = none) := by
  refine ⟨⟨_, rfl, rfl, rfl⟩, fun hall => ?_⟩
  have h := hall
    (scriptEnv [.ok (plainResponse 200
      "\x7b\"data\":\x7b\x7d,\"status\":\x7b\"error_code\":0,\"error_message\":\"deprecated endpoint\"\x7d\x7d")])
    { Data := [],
      Status := { zeroStatus with ErrorMessage := some "deprecated endpoint" } } rfl
  cases h

/-- Some loop index is the first at which the answer of the transport is not
retried. -/
theorem exists_first_not_retried (env : Env) (req : Request) :
    ∃ k, k ≤ MaxRetries ∧ (∀ i, i < k → isRetried i (env.Do i req) = true) ∧
      isRetried k (env.Do k req) = false := by
  have hex : ∃ k, isRetried k (env.Do k req) = false := ⟨MaxRetries, isRetried_last _⟩
  refine ⟨Nat.find hex, Nat.find_min' hex (isRetried_last _), fun i hi => ?_,
    Nat.find_spec hex⟩
  have hmin := Nat.find_min hex hi
  simpa using hmin

/-- A response returned by `doRequest` comes from the transport: the loop was
reached and the response ended it. -/
theorem doRequest_ok_inv {T : Type} (lib : Lib T) (c : Client) (env : Env)
    (endpoint : String) (opts : Option RequestOptions) (resp : Response)
    (h : (doRequest lib c env endpoint opts).result = .ok resp) :
    Started lib c env endpoint opts ∧
      ∃ k, EndsLoop env (buildRequest lib c endpoint opts) k resp := by
  have hs : Started lib c env endpoint opts := by
    by_contra hns
    simp only [doRequest] at h
    split at h
    · cases h
    · rename_i hw
      split at h
      · cases h
      · rename_i hn
        exact hns ⟨hw, hn⟩
  refine ⟨hs, ?_⟩
  obtain ⟨k, hk, hbefore, hlast⟩ :=
    exists_first_not_retried env (buildRequest lib c endpoint opts)
  cases hd : env.Do k (buildRequest lib c endpoint opts) with
  | ok r =>
    rw [hd] at hlast
    have hends : EndsLoop env (buildRequest lib c endpoint opts) k r :=
      ⟨hk, hbefore, hd, hlast⟩
    rw [doRequest_of_endsLoop lib c env endpoint opts k r hs hends] at h
    split at h
    · cases h
    · injection h with h
      subst h
      exact ⟨k, hends⟩
  | error e =>
    rw [hd] at hlast
    have hnot : ¬ k < MaxRetries := by simpa [isRetried] using hlast
    obtain ⟨rest, hrest⟩ := range_split k hk
    have hloop : (sendLoop env (buildRequest lib c endpoint opts)
        (List.range (MaxRetries + 1)) none).2 =
        .error (.wrapped "request failed after 4 attempts" e) := by
      rw [hrest, sendLoop_retried_indices env _ k rest (List.range k) none
        (fun i hi => hbefore i (List.mem_range.mp hi)),
        sendLoop_last_failure env _ k rest none e hd hnot]
    obtain ⟨hw, hn⟩ := hs
    simp only [doRequest, hw, hn] at h
    split at h
    · cases h
    · rename_i heq
      rw [heq] at hloop
      cases hloop
    · rename_i heq
      rw [heq] at hloop
      cases hloop

/-- The result of `get` on a response with status below 400 that ends the loop and
whose body decodes to an envelope with the error code 0. -/
theorem get_result_of_decoded {T : Type} (lib : Lib T) (c : Client) (env : Env)
    (endpoint : String) (opts : Option RequestOptions) (k : Nat) (resp : Response)
    (body : String) (apiResp : APIResponse T)
    (hs : Started lib c env endpoint opts)
    (h : EndsLoop env (buildRequest lib c endpoint opts) k resp)
    (hstatus : resp.StatusCode < 400)
    (hbody : getResponseBody lib resp = (body, none))
    (hjson : lib.unmarshalResponse body = .ok apiResp)
    (hcode : apiResp.Status.ErrorCode = 0) :
    (get lib c env endpoint opts).result = .ok apiResp := by
  have hd := doRequest_of_success_status lib c env endpoint opts k resp hs h hstatus
  simp only [get, reqOpts_eq, hd, hbody, hjson, hcode]
  simp

/-- C23 (amended). `get` returns an envelope without error exactly when the loop is
reached, a response of the transport with status below 400 ends it, the body of that
response is read without error, `json.Unmarshal` decodes this body, and the decoded
envelope has the error code 0; the envelope returned is the decoded one.  So `get`
does not check or clear the error message: it is absent exactly when the decoded one
is. -/
theorem get_returns_decoded_envelope_with_code_zero :
    ∀ (T : Type) (lib : Lib T) (c : Client) (env : Env) (endpoint : String)
      (opts : Option RequestOptions) (apiResp : APIResponse T),
      (get lib c env endpoint opts).result = .ok apiResp ↔
        (Started lib c env endpoint opts ∧
          ∃ k resp body, EndsLoop env (buildRequest lib c endpoint opts) k resp ∧
            resp.StatusCode < 400 ∧
            getResponseBody lib resp = (body, none) ∧
            lib.unmarshalResponse body = .ok apiResp ∧
            apiResp.Status.ErrorCode = 0) := by
  intro T lib c env endpoint opts apiResp
  constructor
  · intro h
    obtain ⟨resp, body, hd, hb, hj, hz⟩ := get_ok_inv lib c env endpoint opts apiResp h
    obtain ⟨hs, k, hends⟩ := doRequest_ok_inv lib c env endpoint opts resp hd
    exact ⟨hs, k, resp, body, hends,
      doRequest_ok_status lib c env endpoint opts resp hd, hb, hj, hz⟩
  · rintro ⟨hs, k, resp, body, hends, hstatus, hb, hj, hz⟩
    exact get_result_of_decoded lib c env endpoint opts k resp body apiResp hs hends
      hstatus hb hj hz

theorem get_returns_decoded_envelope_with_code_zero_witness :
    (get testLib testClient
      (scriptEnv [.error (.plain "reset"), .ok (plainResponse 200
        "\x7b\"data\":null,\"status\":\x7b\"error_code\":0,\"error_message\":\"notice\"\x7d\x7d")])
      "/test" none).result =
      .ok { Data := [], Status := { zeroStatus with ErrorMessage := some "notice" } } ∧
    (Started testLib testClient
      (scriptEnv [.error (.plain "reset"), .ok (plainResponse 200
        "\x7b\"data\":null,\"status\":\x7b\"error_code\":0,\"error_message\":\"notice\"\x7d\x7d")])
      "/test" none ∧
      ∃ k resp body,
        EndsLoop
          (scriptEnv [.error (.plain "reset"), .ok (plainResponse 200
            "\x7b\"data\":null,\"status\":\x7b\"error_code\":0,\"error_message\":\"notice\"\x7d\x7d")])
          (buildRequest testLib testClient "/test" none) k resp ∧
        resp.StatusCode < 400 ∧
        getResponseBody testLib resp = (body, none) ∧
        testLib.unmarshalResponse body =
          .ok { Data := [], Status := { zeroStatus with ErrorMessage := some "notice" } } ∧
        ({ Data := [], Status := { zeroStatus with ErrorMessage := some "notice" } } :
          APIResponse JsonMap).Status.ErrorCode = 0) :=
  ⟨rfl,
    (get_returns_decoded_envelope_with_code_zero JsonMap testLib testClient
      (scriptEnv [.error (.plain "reset"), .ok (plainResponse 200
        "\x7b\"data\":null,\"status\":\x7b\"error_code\":0,\"error_message\":\"notice\"\x7d\x7d")])
      "/test" none
      { Data := [], Status := { zeroStatus with ErrorMessage := some "notice" } }).mp rfl⟩

/-- C27 (counterexample). A response with status 404 whose body decodes to a status
block with the code 0 and a non-null error message: the message of the `APIError` is
the decoded message, not the raw body text. -/
theorem http_error_uses_message_with_code_zero :
    (get testLib testClient
      (scriptEnv [.ok (plainResponse 404
        "\x7b\"status\":\x7b\"error_code\":0,\"error_message\":\"Not found\"\x7d\x7d")])
      "/test" none).result =
      .error (.api { StatusCode := 404, ErrorCode := 0, Message := "Not found" }) ∧
    unmarshalStatus
        "\x7b\"status\":\x7b\"error_code\":0,\"error_message\":\"Not found\"\x7d\x7d" =
      .ok { zeroStatus with ErrorMessage := some "Not found" } ∧
    ("Not found" : String) ≠
      "\x7b\"status\":\x7b\"error_code\":0,\"error_message\":\"Not found\"\x7d\x7d" := by
  refine ⟨rfl, rfl, by decide⟩

/-- C27 (amended). For every response with status `s` of at least 400 that ends the
retry loop: when the body does not decode as a status envelope, the `APIError` has
`StatusCode = s`, `ErrorCode = 0` and the raw body text as `Message`; when it decodes,
with any code, zero included, `ErrorCode` is the decoded code and `Message` is the
decoded error message when that is not null, the raw body text when it is null. -/
theorem http_error_fields :
    ∀ (T : Type) (lib : Lib T) (c : Client) (env : Env) (endpoint : String)
      (opts : Option RequestOptions) (k : Nat) (resp : Response),
      Started lib c env endpoint opts →
      EndsLoop env (buildRequest lib c endpoint opts) k resp →
      resp.StatusCode ≥ 400 →
      (∀ err, lib.unmarshalStatus (getResponseBody lib resp).1 = .error err →
        (get lib c env endpoint opts).result =
          .error (.api { StatusCode := resp.StatusCode, ErrorCode := 0,
                         Message := (getResponseBody lib resp).1 })) ∧
      (∀ st, lib.unmarshalStatus (getResponseBody lib resp).1 = .ok st →
        (get lib c env endpoint opts).result =
          .error (.api { StatusCode := resp.StatusCode, ErrorCode := st.ErrorCode,
                         Message := st.ErrorMessage.getD (getResponseBody lib resp).1 })) := by
  intro T lib c env endpoint opts k resp hs h hstatus
  rw [get_result_of_http_error lib c env endpoint opts k resp hs h hstatus]
  refine ⟨fun err hj => ?_, fun st hj => ?_⟩
  · simp only [httpError, hj]
  · simp only [httpError, hj]
    cases st.ErrorMessage <;> rfl

theorem http_error_fields_witness :
    Started testLib testClient
      (scriptEnv [.ok (plainResponse 500
        "\x7b\"status\":\x7b\"error_code\":0,\"error_message\":null\x7d\x7d")]) "/test" none ∧
    (plainResponse 500
      "\x7b\"status\":\x7b\"error_code\":0,\"error_message\":null\x7d\x7d").StatusCode ≥ 400 ∧
    (get testLib testClient
      (scriptEnv [.ok (plainResponse 500
        "\x7b\"status\":\x7b\"error_code\":0,\"error_message\":null\x7d\x7d")])
      "/test" none).result =
      .error (.api
        { StatusCode := 500
          ErrorCode := 0
          Message := "\x7b\"status\":\x7b\"error_code\":0,\"error_message\":null\x7d\x7d" }) :=
  ⟨⟨rfl, rfl⟩, by decide,
    (http_error_fields JsonMap testLib testClient
      (scriptEnv [.ok (plainResponse 500
        "\x7b\"status\":\x7b\"error_code\":0,\"error_message\":null\x7d\x7d")])
      "/test" none 0
      (plainResponse 500
        "\x7b\"status\":\x7b\"error_code\":0,\"error_message\":null\x7d\x7d")
      ⟨rfl, rfl⟩ (endsLoop_first _ _ _ rfl (by decide)) (by decide)).2 zeroStatus rfl⟩

/-! ## The trace of a call that reaches the loop -/

/-- The trace of `doRequest` when the loop is reached: the wait on the limiter, the
steps of the loop, then the close of the body of a response with status at least 400. -/
theorem doRequest_trace_of_started {T : Type} (lib : Lib T) (c : Client) (env : Env)
    (endpoint : String) (opts : Option RequestOptions)
    (hs : Started lib c env endpoint opts) :
    (doRequest lib c env endpoint opts).trace =
      .limiterWait ::
        (sendLoop env (buildRequest lib c endpoint opts) (List.range (MaxRetries + 1)) none).1 ∨
    (doRequest lib c env endpoint opts).trace =
      .limiterWait ::
        (sendLoop env (buildRequest lib c endpoint opts) (List.range (MaxRetries + 1)) none).1
        ++ [.closeBody] := by
  obtain ⟨hw, hn⟩ := hs
  simp only [doRequest, hw, hn]
  split
  · rename_i h
    rw [h]
    exact Or.inl rfl
  · rename_i h
    rw [h]
    exact Or.inl rfl
  · rename_i h
    rw [h]
    split
    · exact Or.inr rfl
    · exact Or.inl rfl

/-- The trace of `doRequest` when the loop is not reached. -/
theorem doRequest_trace_of_not_started {T : Type} (lib : Lib T) (c : Client) (env : Env)
    (endpoint : String) (opts : Option RequestOptions)
    (hs : ¬ Started lib c env endpoint opts) :
    (doRequest lib c env endpoint opts).trace = [.limiterWait] := by
  simp only [doRequest]
  split
  · rfl
  · rename_i hw
    split
    · rfl
    · rename_i hn
      exact absurd ⟨hw, hn⟩ hs

/-- The sleeps of `get` are those of the loop. -/
theorem get_sleeps_of_started {T : Type} (lib : Lib T) (c : Client) (env : Env)
    (endpoint : String) (opts : Option RequestOptions)
    (hs : Started lib c env endpoint opts) :
    sleeps (get lib c env endpoint opts).trace =
      sleeps (sendLoop env (buildRequest lib c endpoint opts)
        (List.range (MaxRetries + 1)) none).1 := by
  rw [get_sleeps]
  rcases doRequest_trace_of_started lib c env endpoint opts hs with h | h <;> rw [h]
  · rfl
  · rw [sleeps_append]
    simp [sleeps]

/-- The steps of the loop up to a loop index before which every attempt is retried. -/
theorem sendLoop_trace_of_retried (env : Env) (req : Request) (k : Nat) (hk : k ≤ MaxRetries)
    (h : ∀ i, i < k → isRetried i (env.Do i req) = true) :
    ∃ tail, (sendLoop env req (List.range (MaxRetries + 1)) none).1 =
      retryTrace env req k ++ tail := by
  obtain ⟨rest, hrest⟩ := range_split k hk
  rw [hrest, sendLoop_retried_indices env req k rest (List.range k) none
    (fun i hi => h i (List.mem_range.mp hi))]
  exact ⟨_, rfl⟩

/-- A product of seconds that fits 64 bits is not changed by the wrap. -/
theorem wrapInt64_seconds (n : Int) (hlo : -9223372036 ≤ n) (hhi : n ≤ 9223372036) :
    wrapInt64 (n * Second) = n * Second := by
  simp only [wrapInt64, Second]
  omega

/-! ## Claims on the wait after a 429 response -/

/-- C26 (counterexample). A 429 response at loop index 0 whose `Retry-After` is
"9223372037": the header parses as the integer 9223372037, and the duration passed to
`time.Sleep` is the wrapped product, a negative number of nanoseconds, not
9223372037 seconds. -/
theorem retry_after_overflows :
    Atoi "9223372037" = some 9223372037 ∧
    sleeps (get testLib testClient
      (scriptEnv [.ok { StatusCode := 429, ContentEncoding := "", RetryAfter := "9223372037",
                        Body := { data := "", err := none } },
        .ok (plainResponse 200 "null")])
      "/test" none).trace = [-9223372036709551616] ∧
    (-9223372036709551616 : Int) ≠ 9223372037 * Second := by
  refine ⟨by decide, by decide, by decide⟩

/-- C26 (amended). On a 429 response at loop index `a` below 3 that is reached by
retries, the `a`-th sleep of the call is the wait chosen for that response.  When the
`Retry-After` header parses as an integer `n` of at most 9223372036 in absolute value,
so that `n` seconds fit a 64-bit duration, `time.Sleep` is called with exactly `n`
seconds; when the header is absent or does not parse as an integer, such as an HTTP
date, it is called with `a+1` seconds, the linear backoff of the transport failures. -/
theorem retry_after_wait :
    (∀ (T : Type) (lib : Lib T) (c : Client) (env : Env) (endpoint : String)
        (opts : Option RequestOptions) (a : Nat) (resp : Response),
        Started lib c env endpoint opts →
        a < 3 →
        (∀ i, i < a → isRetried i (env.Do i (buildRequest lib c endpoint opts)) = true) →
        env.Do a (buildRequest lib c endpoint opts) = .ok resp →
        resp.StatusCode = 429 →
        (sleeps (get lib c env endpoint opts).trace)[a]? = some (retryAfterDelay resp a)) ∧
    (∀ (resp : Response) (a : Nat) (n : Int),
        Atoi resp.RetryAfter = some n → -9223372036 ≤ n → n ≤ 9223372036 →
        retryAfterDelay resp a = n * Second) ∧
    (∀ (resp : Response) (a : Nat),
        resp.RetryAfter = "" ∨ Atoi resp.RetryAfter = none →
        retryAfterDelay resp a = ((a : Int) + 1) * Second) ∧
    Atoi "120" = some 120 ∧
    Atoi "Wed, 21 Oct 2015 07:28:00 GMT" = none := by
  refine ⟨?_, ?_, ?_, by decide, by decide⟩
  · intro T lib c env endpoint opts a resp hs ha hbefore hresp hstatus
    have hretried : ∀ i, i < a + 1 →
        isRetried i (env.Do i (buildRequest lib c endpoint opts)) = true := by
      intro i hi
      by_cases hia : i < a
      · exact hbefore i hia
      · have hieq : i = a := by omega
        subst hieq
        rw [hresp]
        exact isRetried_429 i resp ha hstatus
    obtain ⟨tail, htail⟩ := sendLoop_trace_of_retried env (buildRequest lib c endpoint opts)
      (a + 1) (by show a + 1 ≤ 3; omega) hretried
    rw [get_sleeps_of_started lib c env endpoint opts hs, htail, sleeps_append,
      sleeps_retryTrace]
    have hlen : a < ((List.range (a + 1)).map fun i =>
        retryDelay i (env.Do i (buildRequest lib c endpoint opts))).length := by
      simp
    rw [List.getElem?_append_left hlen]
    simp [List.getElem?_range, hresp, retryDelay]
  · intro resp a n hparse hlo hhi
    have hne : resp.RetryAfter ≠ "" := by
      intro h
      rw [h] at hparse
      cases hparse
    simp only [retryAfterDelay, hparse]
    rw [if_pos hne]
    exact wrapInt64_seconds n hlo hhi
  · intro resp a h
    rcases h with h | h
    · simp only [retryAfterDelay]
      rw [if_neg (not_not.mpr h)]
      exact backoff_eq a
    · simp only [retryAfterDelay, h]
      split <;> exact backoff_eq a

theorem retry_after_wait_witness :
    Started testLib testClient
      (scriptEnv [.error (.plain "reset"),
        .ok { StatusCode := 429, ContentEncoding := "", RetryAfter := "120",
              Body := { data := "", err := none } },
        .ok (plainResponse 200 "null")]) "/test" none ∧
    (1 : Nat) < 3 ∧
    (sleeps (get testLib testClient
      (scriptEnv [.error (.plain "reset"),
        .ok { StatusCode := 429, ContentEncoding := "", RetryAfter := "120",
              Body := { data := "", err := none } },
        .ok (plainResponse 200 "null")]) "/test" none).trace)[1]? =
      some (retryAfterDelay
        { StatusCode := 429, ContentEncoding := "", RetryAfter := "120",
          Body := { data := "", err := none } } 1) ∧
    retryAfterDelay
        { StatusCode := 429, ContentEncoding := "", RetryAfter := "120",
          Body := { data := "", err := none } } 1 = 120 * Second ∧
    retryAfterDelay
        { StatusCode := 429, ContentEncoding := "", RetryAfter := "soon",
          Body := { data := "", err := none } } 2 = ((2 : Nat) + 1 : Int) * Second :=
  ⟨⟨rfl, rfl⟩, by decide,
    retry_after_wait.1 JsonMap testLib testClient
      (scriptEnv [.error (.plain "reset"),
        .ok { StatusCode := 429, ContentEncoding := "", RetryAfter := "120",
              Body := { data := "", err := none } },
        .ok (plainResponse 200 "null")]) "/test" none 1
      { StatusCode := 429, ContentEncoding := "", RetryAfter := "120",
        Body := { data := "", err := none } }
      ⟨rfl, rfl⟩ (by decide)
      (fun i hi => by
        have h0 : i = 0 := by omega
        subst h0
        rfl)
      rfl rfl,
    retry_after_wait.2.1
      { StatusCode := 429, ContentEncoding := "", RetryAfter := "120",
        Body := { data := "", err := none } } 1 120 (by decide) (by decide) (by decide),
    retry_after_wait.2.2.1
      { StatusCode := 429, ContentEncoding := "", RetryAfter := "soon",
        Body := { data := "", err := none } } 2 (Or.inr (by decide))⟩

/-! ## The request that is sent -/

theorem sentRequests_append (xs ys : List Event) :
    sentRequests (xs ++ ys) = sentRequests xs ++ sentRequests ys := by
  induction xs with
  | nil => rfl
  | cons x xs ih => cases x <;> simp [sentRequests, ih]

/-- Every send of the loop hands the same request to the transport. -/
theorem sentRequests_sendLoop (env : Env) (req : Request) :
    ∀ (idxs : List Nat) (r : Option Response),
      ∀ x ∈ sentRequests (sendLoop env req idxs r).1, x = req := by
  intro idxs
  induction idxs with
  | nil =>
    intro r x hx
    simp [sendLoop, sentRequests] at hx
  | cons a rest ih =>
    intro r x hx
    simp only [sendLoop] at hx
    split at hx
    · split at hx
      · simp only [sentRequests, List.mem_cons] at hx
        rcases hx with hx | hx
        · exact hx
        · exact ih none x hx
      · simpa [sentRequests] using hx
    · split at hx
      · rename_i resp _ _
        simp only [sentRequests, List.mem_cons] at hx
        rcases hx with hx | hx
        · exact hx
        · exact ih (some resp) x hx
      · simpa [sentRequests] using hx

/-- Every request that one call of `get` sends is the request built from the client,
the endpoint and the options. -/
theorem sentRequests_get {T : Type} (lib : Lib T) (c : Client) (env : Env)
    (endpoint : String) (opts : Option RequestOptions) :
    ∀ x ∈ sentRequests (get lib c env endpoint opts).trace,
      x = buildRequest lib c endpoint opts := by
  intro x hx
  have hdo : ∀ y ∈ sentRequests (doRequest lib c env endpoint opts).trace,
      y = buildRequest lib c endpoint opts := by
    intro y hy
    by_cases hs : Started lib c env endpoint opts
    · have hloop := sentRequests_sendLoop env (buildRequest lib c endpoint opts)
        (List.range (MaxRetries + 1)) none y
      rcases doRequest_trace_of_started lib c env endpoint opts hs with h | h
      · rw [h] at hy
        exact hloop (by simpa [sentRequests] using hy)
      · rw [h] at hy
        exact hloop (by simpa [sentRequests, sentRequests_append] using hy)
    · rw [doRequest_trace_of_not_started lib c env endpoint opts hs] at hy
      simp [sentRequests] at hy
  rcases get_trace lib c env endpoint opts with h | h
  · rw [h] at hx
    exact hdo x hx
  · rw [h, sentRequests_append] at hx
    exact hdo x (by simpa [sentRequests] using hx)

/-! ## The headers of the request -/

theorem lookup_filter_ne_self (h : Header) (ck : String) :
    (h.filter fun p => decide (p.1 ≠ ck)).lookup ck = none := by
  induction h with
  | nil => rfl
  | cons a t ih =>
    obtain ⟨a1, a2⟩ := a
    by_cases h1 : a1 = ck
    · rw [List.filter_cons_of_neg (by simpa using h1)]
      exact ih
    · have h2 : (ck == a1) = false := by simpa using fun h3 => h1 h3.symm
      rw [List.filter_cons_of_pos (by simpa using h1)]
      simp only [List.lookup_cons, h2, ih]

theorem lookup_filter_ne_other (h : Header) (ck x : String) (hx : x ≠ ck) :
    (h.filter fun p => decide (p.1 ≠ ck)).lookup x = h.lookup x := by
  induction h with
  | nil => rfl
  | cons a t ih =>
    obtain ⟨a1, a2⟩ := a
    by_cases h1 : a1 = ck
    · have h2 : (x == a1) = false := by
        rw [h1]
        simpa using hx
      rw [List.filter_cons_of_neg (by simpa using h1)]
      simp only [List.lookup_cons, h2, ih]
    · rw [List.filter_cons_of_pos (by simpa using h1)]
      simp only [List.lookup_cons, ih]

/-- After `Set(key, value)` the header holds `value` under the canonical key. -/
theorem lookup_headerSet_same (canon : String → String) (h : Header) (k v : String) :
    (headerSet canon h k v).lookup (canon k) = some v := by
  simp only [headerSet, List.lookup_append, lookup_filter_ne_self, List.lookup_cons,
    beq_self_eq_true]
  rfl

/-- After `Set(key, value)` the header is as before under every other canonical key. -/
theorem lookup_headerSet_other (canon : String → String) (h : Header) (k v x : String)
    (hx : x ≠ canon k) : (headerSet canon h k v).lookup x = h.lookup x := by
  have h2 : (x == canon k) = false := by simpa using hx
  simp only [headerSet, List.lookup_append, lookup_filter_ne_other h (canon k) x hx,
    List.lookup_cons, h2, List.lookup_nil]
  cases h.lookup x <;> rfl

/-- The headers of the caller leave a canonical key alone when none of them has it. -/
theorem lookup_foldl_headerSet_other (canon : String → String) (x : String) :
    ∀ (hs : List (String × String)) (h : Header),
      (∀ kv ∈ hs, canon kv.1 ≠ x) →
      (hs.foldl (fun h kv => headerSet canon h kv.1 kv.2) h).lookup x = h.lookup x := by
  intro hs
  induction hs with
  | nil =>
    intro h _
    rfl
  | cons a t ih =>
    intro h hne
    rw [List.foldl_cons, ih _ (fun kv hkv => hne kv (List.mem_cons_of_mem _ hkv))]
    exact lookup_headerSet_other canon h a.1 a.2 x
      (fun heq => hne a (List.mem_cons_self _ _) heq.symm)

/-- Each header of the caller is in the result when no two of them have the same
canonical key. -/
theorem lookup_foldl_headerSet_mem (canon : String → String) :
    ∀ (hs : List (String × String)) (h : Header),
      (hs.map fun kv => canon kv.1).Nodup →
      ∀ kv ∈ hs,
        (hs.foldl (fun h kv => headerSet canon h kv.1 kv.2) h).lookup (canon kv.1) =
          some kv.2 := by
  intro hs
  induction hs with
  | nil =>
    intro h _ kv hkv
    cases hkv
  | cons a t ih =>
    intro h hnd kv hkv
    rw [List.map_cons, List.nodup_cons] at hnd
    rw [List.foldl_cons]
    rcases List.mem_cons.mp hkv with heq | hmem
    · subst heq
      rw [lookup_foldl_headerSet_other canon (canon kv.1) t _ (fun kv2 hkv2 heq2 =>
        hnd.1 (List.mem_map.mpr ⟨kv2, hkv2, heq2⟩))]
      exact lookup_headerSet_same canon h kv.1 kv.2
    · exact ih _ hnd.2 kv hmem

/-- The headers of a request made without headers of the caller (lines 145-151). -/
theorem requestHeader_of_noCallerHeaders {T : Type} (lib : Lib T) (c : Client)
    (opts : Option RequestOptions) (h : NoCallerHeaders opts) :
    requestHeader lib c opts =
      if c.apiKey ≠ "" then
        headerSet lib.canonicalHeaderKey
          (headerSet lib.canonicalHeaderKey
            (headerSet lib.canonicalHeaderKey
              (headerSet lib.canonicalHeaderKey [] "Accept" "application/json")
              "Accept-Encoding" "gzip")
            "User-Agent" c.userAgent)
          "X-CMC_PRO_API_KEY" c.apiKey
      else
        headerSet lib.canonicalHeaderKey
          (headerSet lib.canonicalHeaderKey
            (headerSet lib.canonicalHeaderKey [] "Accept" "application/json")
            "Accept-Encoding" "gzip")
          "User-Agent" c.userAgent := by
  rcases h with h | ⟨o, ho, h | h⟩
  · subst h
    rfl
  · subst ho
    simp only [requestHeader, h]
  · subst ho
    simp only [requestHeader, h, List.foldl_nil]

/-! ## Claims on the request -/

/-- C22. For every call made without headers of the caller, and every library in
which the four header names have different canonical forms, as they have in
`net/http`: the request holds `Accept` = "application/json", `Accept-Encoding` =
"gzip" and `User-Agent` = the user agent of the client; it holds `X-CMC_PRO_API_KEY`
with the API key as value when the key is not empty, and no such header when the key
is empty.  Every send of the call carries this request. -/
theorem default_request_headers :
    (∀ (T : Type) (lib : Lib T) (c : Client) (endpoint : String)
        (opts : Option RequestOptions),
        NoCallerHeaders opts →
        DistinctDefaultHeaders lib.canonicalHeaderKey →
        (buildRequest lib c endpoint opts).Header.lookup (lib.canonicalHeaderKey "Accept") =
          some "application/json" ∧
        (buildRequest lib c endpoint opts).Header.lookup
          (lib.canonicalHeaderKey "Accept-Encoding") = some "gzip" ∧
        (buildRequest lib c endpoint opts).Header.lookup
          (lib.canonicalHeaderKey "User-Agent") = some c.userAgent ∧
        (c.apiKey ≠ "" →
          (buildRequest lib c endpoint opts).Header.lookup
            (lib.canonicalHeaderKey "X-CMC_PRO_API_KEY") = some c.apiKey) ∧
        (c.apiKey = "" →
          (buildRequest lib c endpoint opts).Header.lookup
            (lib.canonicalHeaderKey "X-CMC_PRO_API_KEY") = none)) ∧
    (∀ (T : Type) (lib : Lib T) (c : Client) (env : Env) (endpoint : String)
        (opts : Option RequestOptions),
        ∀ req ∈ sentRequests (get lib c env endpoint opts).trace,
          req = buildRequest lib c endpoint opts) ∧
    DistinctDefaultHeaders CanonicalMIMEHeaderKey ∧
    (buildRequest testLib testClient "/test"
        (some { QueryParams := none, Headers := none })).Header =
      [("Accept", "application/json"), ("Accept-Encoding", "gzip"),
        ("User-Agent", "go-coinmarketcap/1.0"), ("X-Cmc_pro_api_key", "test-key")] := by
  refine ⟨?_, fun T lib c env endpoint opts => sentRequests_get lib c env endpoint opts,
    by unfold DistinctDefaultHeaders; decide, by decide⟩
  intro T lib c endpoint opts hno hdist
  simp only [DistinctDefaultHeaders, List.map_cons, List.map_nil, List.nodup_cons,
    List.mem_cons, List.mem_singleton, not_or, List.not_mem_nil, not_false_eq_true,
    List.nodup_nil, and_true] at hdist
  obtain ⟨⟨h12, h13, h14⟩, ⟨h23, h24⟩, h34⟩ := hdist
  have hH := requestHeader_of_noCallerHeaders lib c opts hno
  simp only [buildRequest]
  rw [hH]
  by_cases hk : c.apiKey = ""
  · rw [if_neg (not_not.mpr hk)]
    refine ⟨?_, ?_, ?_, fun h => absurd hk h, fun _ => ?_⟩
    · rw [lookup_headerSet_other _ _ _ _ _ h13, lookup_headerSet_other _ _ _ _ _ h12,
        lookup_headerSet_same]
    · rw [lookup_headerSet_other _ _ _ _ _ h23, lookup_headerSet_same]
    · rw [lookup_headerSet_same]
    · rw [lookup_headerSet_other _ _ _ _ _ (Ne.symm h34),
        lookup_headerSet_other _ _ _ _ _ (Ne.symm h24),
        lookup_headerSet_other _ _ _ _ _ (Ne.symm h14)]
      rfl
  · rw [if_pos hk]
    refine ⟨?_, ?_, ?_, fun _ => ?_, fun h => absurd h hk⟩
    · rw [lookup_headerSet_other _ _ _ _ _ h14, lookup_headerSet_other _ _ _ _ _ h13,
        lookup_headerSet_other _ _ _ _ _ h12, lookup_headerSet_same]
    · rw [lookup_headerSet_other _ _ _ _ _ h24, lookup_headerSet_other _ _ _ _ _ h23,
        lookup_headerSet_same]
    · rw [lookup_headerSet_other _ _ _ _ _ h34, lookup_headerSet_same]
    · rw [lookup_headerSet_same]

theorem default_request_headers_witness :
    NoCallerHeaders (some { QueryParams := some [("limit", ["10"])], Headers := some [] }) ∧
    DistinctDefaultHeaders testLib.canonicalHeaderKey ∧
    (buildRequest testLib { testClient with apiKey := "" } "/v1/key/info"
        (some { QueryParams := some [("limit", ["10"])], Headers := some [] })).Header.lookup
      (testLib.canonicalHeaderKey "X-CMC_PRO_API_KEY") = none ∧
    (buildRequest testLib { testClient with apiKey := "" } "/v1/key/info"
        (some { QueryParams := some [("limit", ["10"])], Headers := some [] })).Header.lookup
      (testLib.canonicalHeaderKey "User-Agent") = some "go-coinmarketcap/1.0" :=
  ⟨Or.inr ⟨_, rfl, Or.inr rfl⟩, by unfold DistinctDefaultHeaders; decide,
    (default_request_headers.1 JsonMap testLib { testClient with apiKey := "" }
      "/v1/key/info" (some { QueryParams := some [("limit", ["10"])], Headers := some [] })
      (Or.inr ⟨_, rfl, Or.inr rfl⟩) (by unfold DistinctDefaultHeaders; decide)).2.2.2.2 rfl,
    (default_request_headers.1 JsonMap testLib { testClient with apiKey := "" }
      "/v1/key/info" (some { QueryParams := some [("limit", ["10"])], Headers := some [] })
      (Or.inr ⟨_, rfl, Or.inr rfl⟩) (by unfold DistinctDefaultHeaders; decide)).2.2.1⟩

/-- C28. The URL of the request is the base URL followed by the endpoint path when
the options are nil or their parameter set is nil or empty, and the base URL, the
endpoint path, "?" and the encoded parameter set when the set is not empty; every
send of the call carries a request with this URL. -/
theorem request_url :
    (∀ (T : Type) (lib : Lib T) (c : Client) (endpoint : String),
        (buildRequest lib c endpoint none).URL = c.baseURL ++ endpoint) ∧
    (∀ (T : Type) (lib : Lib T) (c : Client) (endpoint : String) (o : RequestOptions),
        o.QueryParams = none ∨ o.QueryParams = some [] →
        (buildRequest lib c endpoint (some o)).URL = c.baseURL ++ endpoint) ∧
    (∀ (T : Type) (lib : Lib T) (c : Client) (endpoint : String) (o : RequestOptions)
        (q : Values),
        o.QueryParams = some q → q ≠ [] →
        (buildRequest lib c endpoint (some o)).URL =
          c.baseURL ++ endpoint ++ "?" ++ lib.encodeValues q) ∧
    (∀ (T : Type) (lib : Lib T) (c : Client) (env : Env) (endpoint : String)
        (opts : Option RequestOptions),
        ∀ req ∈ sentRequests (get lib c env endpoint opts).trace,
          req.URL = (buildRequest lib c endpoint opts).URL) ∧
    (buildRequest testLib testClient "/v1/cryptocurrency/listings/latest"
        (some { QueryParams := some [("start", ["1"]), ("limit", ["10"]), ("convert", ["USD"])],
                Headers := none })).URL =
      "http://127.0.0.1:8080/v1/cryptocurrency/listings/latest?convert=USD&limit=10&start=1" := by
  refine ⟨fun T lib c endpoint => rfl, ?_, ?_, ?_, by decide⟩
  · intro T lib c endpoint o h
    rcases h with h | h <;> simp [buildRequest, requestURL, h]
  · intro T lib c endpoint o q hq hne
    have hlen : q.length > 0 := List.length_pos.mpr hne
    simp only [buildRequest, requestURL, hq]
    rw [if_pos hlen]
  · intro T lib c env endpoint opts req hreq
    rw [sentRequests_get lib c env endpoint opts req hreq]

theorem request_url_witness :
    ({ QueryParams := some [], Headers := none } : RequestOptions).QueryParams = none ∨
      ({ QueryParams := some [], Headers := none } : RequestOptions).QueryParams = some [] ∧
    (buildRequest testLib testClient "/v1/key/info"
        (some { QueryParams := some [], Headers := none })).URL =
      "http://127.0.0.1:8080" ++ "/v1/key/info" ∧
    ([("symbol", ["BTC,ETH"]), ("aux", ["notice"])] : Values) ≠ [] ∧
    (buildRequest testLib testClient "/v1/cryptocurrency/map"
        (some { QueryParams := some [("symbol", ["BTC,ETH"]), ("aux", ["notice"])],
                Headers := none })).URL =
      "http://127.0.0.1:8080" ++ "/v1/cryptocurrency/map" ++ "?" ++
        Encode [("symbol", ["BTC,ETH"]), ("aux", ["notice"])] ∧
    Encode [("symbol", ["BTC,ETH"]), ("aux", ["notice"])] = "aux=notice&symbol=BTC%2CETH" :=
  Or.inr ⟨rfl,
    request_url.2.1 JsonMap testLib testClient "/v1/key/info"
      { QueryParams := some [], Headers := none } (Or.inr rfl),
    by decide,
    request_url.2.2.1 JsonMap testLib testClient "/v1/cryptocurrency/map"
      { QueryParams := some [("symbol", ["BTC,ETH"]), ("aux", ["notice"])], Headers := none }
      [("symbol", ["BTC,ETH"]), ("aux", ["notice"])] rfl (by decide),
    by decide⟩

/-- C29. The headers of the caller are applied last and win: when no two keys of the
caller have the same canonical form, the request holds, for every header `(k, v)` of
the options, the value `v` under `k`, also when `k` is one of the names that
`doRequest` sets itself; every send of the call carries this request.  In the example
the caller replaces `Accept` and the API key of the client. -/
theorem caller_headers_win :
    (∀ (T : Type) (lib : Lib T) (c : Client) (endpoint : String) (o : RequestOptions)
        (hs : List (String × String)),
        o.Headers = some hs →
        (hs.map fun kv => lib.canonicalHeaderKey kv.1).Nodup →
        ∀ k v, (k, v) ∈ hs →
          (buildRequest lib c endpoint (some o)).Header.lookup (lib.canonicalHeaderKey k) =
            some v ∧
          headerGet lib.canonicalHeaderKey (buildRequest lib c endpoint (some o)).Header k =
            v) ∧
    (∀ (T : Type) (lib : Lib T) (c : Client) (env : Env) (endpoint : String)
        (opts : Option RequestOptions),
        ∀ req ∈ sentRequests (get lib c env endpoint opts).trace,
          req.Header = (buildRequest lib c endpoint opts).Header) ∧
    (buildRequest testLib testClient "/test"
        (some { QueryParams := none,
                Headers := some [("accept", "text/plain"), ("X-CMC_PRO_API_KEY", "other-key")]
              })).Header =
      [("Accept-Encoding", "gzip"), ("User-Agent", "go-coinmarketcap/1.0"),
        ("Accept", "text/plain"), ("X-Cmc_pro_api_key", "other-key")] := by
  refine ⟨?_, ?_, by decide⟩
  · intro T lib c endpoint o hs ho hnd k v hmem
    have hl : (buildRequest lib c endpoint (some o)).Header.lookup (lib.canonicalHeaderKey k) =
        some v := by
      simp only [buildRequest, requestHeader, ho]
      exact lookup_foldl_headerSet_mem lib.canonicalHeaderKey hs _ hnd (k, v) hmem
    refine ⟨hl, ?_⟩
    simp only [headerGet, hl]
    rfl
  · intro T lib c env endpoint opts req hreq
    rw [sentRequests_get lib c env endpoint opts req hreq]

theorem caller_headers_win_witness :
    ({ QueryParams := none,
       Headers := some [("user-agent", "MyApp/2.0"), ("X-Request-Id", "42")] } :
      RequestOptions).Headers = some [("user-agent", "MyApp/2.0"), ("X-Request-Id", "42")] ∧
    ([("user-agent", "MyApp/2.0"), ("X-Request-Id", "42")].map fun kv =>
      testLib.canonicalHeaderKey kv.1).Nodup ∧
    headerGet testLib.canonicalHeaderKey
      (buildRequest testLib testClient "/test"
        (some { QueryParams := none,
                Headers := some [("user-agent", "MyApp/2.0"), ("X-Request-Id", "42")] })).Header
      "user-agent" = "MyApp/2.0" :=
  ⟨rfl, by decide,
    (caller_headers_win.1 JsonMap testLib testClient "/test"
      { QueryParams := none,
        Headers := some [("user-agent", "MyApp/2.0"), ("X-Request-Id", "42")] }
      [("user-agent", "MyApp/2.0"), ("X-Request-Id", "42")] rfl (by decide)
      "user-agent" "MyApp/2.0" (by decide)).2⟩

end CoinMarketCap
